import Mathlib

/-!
The SID decoder and the directory reconcilers of winad-client-go.

A shallow embedding of `helper/adhelper.go` and of the entity services in
`client/*.go`, with the properties of their specification stated over it.

Conventions of the embedding.

* A Go `string` and a Go `[]byte` are both a finite sequence of bytes:
  `GoString = List Byte`. ASCII string literals of the source are written
  `lit "..."`.
* A Go `int` is 64 bits wide. Inside `Decode` every intermediate value is a
  non-negative number below `2^48` (six bytes) or `2^32` (four bytes), so the
  bit operations are the ones of `Nat` and never wrap; the fields of `SID`
  are `Int`, as any Go `int` may be stored in them.
* A run-time panic (index out of range, nil dereference) of pure code is
  `none`.
-/

set_option autoImplicit false

/-- One octet. -/
abbrev Byte := Fin 256

/-- The bytes of a Go `string` (or of a `[]byte`). -/
abbrev GoString := List Byte

/-- An ASCII string literal of the source, as its bytes. -/
def lit (s : String) : GoString :=
  s.toList.map (fun c => ⟨c.toNat % 256, Nat.mod_lt _ (by decide)⟩)

/-- Decimal rendering of an `int`: `strconv.Itoa`, and the verb `%d`. -/
def itoa (i : Int) : GoString := lit (toString i)

/-- Indexing `b[i]` of a byte slice, converted with `int(...)`; `none` is the
index-out-of-range panic. -/
def byteIndex (b : List Byte) (i : Nat) : Option Nat := (b[i]?).map Fin.val

/-- Indexing `xs[i]` of a slice with an `int` index; `none` is the
index-out-of-range panic (negative index, or index past the end). -/
def sliceIndex {α : Type} (xs : List α) (i : Int) : Option α :=
  if i < 0 then none else xs[i.toNat]?

namespace helper

/-- The struct `SID` of `adhelper.go`. `RelativeID` is a `*int`. -/
structure SID where
  RevisionLevel : Int
  SubAuthorityCount : Int
  Authority : Int
  SubAuthorities : List Int
  RelativeID : Option Int
  deriving DecidableEq, Repr

/-- The method `SID.String`: `"S-%d-%d"` followed by `"-%d"` per sub-authority. -/
def SID.String (sid : SID) : GoString :=
  sid.SubAuthorities.foldl (fun s v => s ++ (lit "-" ++ itoa v))
    (lit "S-" ++ itoa sid.RevisionLevel ++ lit "-" ++ itoa sid.Authority)

/-- The method `SID.RID`: `sid.SubAuthorities[len(sid.SubAuthorities)-1]`. -/
def SID.RID (sid : SID) : Option Int :=
  let l : Int := sid.SubAuthorities.length
  sliceIndex sid.SubAuthorities (l - 1)

/-- The first loop of `Decode`: `for i := 2; i <= 7; i++`, accumulating
`sid.Authority | int(b[i])<<(8*(5-(i-2)))`. -/
def decodeAuthority (b : List Byte) : Option Nat :=
  [2, 3, 4, 5, 6, 7].foldlM
    (fun (authority : Nat) (i : Nat) => do
      let x ← byteIndex b i
      pure (authority ||| (x <<< (8 * (5 - (i - 2))))))
    0

/-- The inner loop of `Decode`: `for k := 0; k < size; k++` with `size = 4`,
accumulating `subAuthority | (int(b[offset+k])&0xFF)<<(8*k)`. -/
def decodeSubAuthority (b : List Byte) (offset : Nat) : Option Nat :=
  (List.range 4).foldlM
    (fun (subAuthority : Nat) (k : Nat) => do
      let x ← byteIndex b (offset + k)
      pure (subAuthority ||| ((x &&& 0xFF) <<< (8 * k))))
    0

/-- The outer loop of `Decode`: `for i := 0; i < sid.SubAuthorityCount; i++`,
whose state is `offset` and the slice appended to. -/
def decodeSubAuthorities (b : List Byte) (count : Nat) : Option (Nat × List Int) :=
  (List.range count).foldlM
    (fun (st : Nat × List Int) (_ : Nat) => do
      let subAuthority ← decodeSubAuthority b st.1
      pure (st.1 + 4, st.2 ++ [(subAuthority : Int)]))
    (8, [])

/-- The function `Decode`. -/
def Decode (b : List Byte) : Option SID := do
  let revisionLevel ← byteIndex b 0
  let count ← byteIndex b 1
  let subAuthorityCount := count &&& 0xFF
  let authority ← decodeAuthority b
  let (_, subAuthorities) ← decodeSubAuthorities b subAuthorityCount
  pure { RevisionLevel := revisionLevel
         SubAuthorityCount := subAuthorityCount
         Authority := authority
         SubAuthorities := subAuthorities
         RelativeID := none }

/-! ### The layout of the specification -/

/-- The byte at position `i` of a blob (`0` past the end). -/
def byteAt (b : List Byte) (i : Nat) : Nat := (b.getD i 0).val

/-- Bytes 2..7 read as a 6-byte big-endian number: the sum over `j` in `0..5`
of `b[2+j] * 256^(5-j)`. -/
def layoutAuthority (b : List Byte) : Nat :=
  ((List.range 6).map (fun j => byteAt b (2 + j) * 256 ^ (5 - j))).sum

/-- The `i`-th sub-authority read as a 4-byte little-endian number: the sum
over `k` in `0..3` of `b[8+4i+k] * 256^k`. -/
def layoutSubAuthority (b : List Byte) (i : Nat) : Nat :=
  ((List.range 4).map (fun k => byteAt b (8 + 4 * i + k) * 256 ^ k)).sum

/-- The structured identifier that the layout of the specification assigns to
a blob. -/
def layoutSID (b : List Byte) : SID :=
  { RevisionLevel := byteAt b 0
    SubAuthorityCount := byteAt b 1
    Authority := layoutAuthority b
    SubAuthorities := (List.range (byteAt b 1)).map (fun i => (layoutSubAuthority b i : Int))
    RelativeID := none }

/-- The blob of the specification's example: revision 1, count 5, authority 5,
sub-authorities 21, 2, 3, 4, 1105. -/
def exampleBlob : List Byte :=
  [1, 5, 0, 0, 0, 0, 0, 5, 21, 0, 0, 0, 2, 0, 0, 0, 3, 0, 0, 0, 4, 0, 0, 0, 81, 4, 0, 0]

/-- A blob whose length agrees with its count byte, the count being zero. -/
def emptyCountBlob : List Byte := [1, 0, 0, 0, 0, 0, 0, 5]

end helper

namespace base64

/-! ### `encoding/base64`, `StdEncoding`

The two library functions that `createUser` and `Siddecode` call on the raw
`objectSid`, after RFC 4648 section 4 and the behaviour of the Go standard
library: the alphabet `A-Z a-z 0-9 + /`, padding with `=`, and a decoder that
skips `\r` and `\n`, stops at the first corrupt quantum and returns the bytes
decoded so far together with an error. -/

/-- The alphabet of `StdEncoding`. -/
def encodeStd : GoString :=
  lit "ABCDEFGHIJKLMNOPQRSTUVWXYZabcdefghijklmnopqrstuvwxyz0123456789+/"

/-- The padding character `=`. -/
def padChar : Byte := 61

/-- The table lookup `enc.encode[v & 0x3F]`. -/
def encodeChar (v : Nat) : Byte := encodeStd.getD (v % 64) 0

/-- The table lookup `enc.decodeMap[c]`; `none` stands for the entry `0xff` of a
byte outside the alphabet. -/
def decodeMap (c : Byte) : Option Nat :=
  if encodeStd.indexOf c < 64 then some (encodeStd.indexOf c) else none

/-- The 24-bit group `src[0]<<16 | src[1]<<8 | src[2]` of three octets. -/
def group24 (a b c : Nat) : Nat := a * 65536 + b * 256 + c

/-- The group `d0<<18 | d1<<12 | d2<<6 | d3` of four sextets. -/
def sextets24 (d0 d1 d2 d3 : Nat) : Nat := d0 * 262144 + d1 * 4096 + d2 * 64 + d3

/-- The conversion `byte(v)` of an unsigned number. -/
def toByte (v : Nat) : Byte := ⟨v % 256, Nat.mod_lt _ (by decide)⟩

/-- The function `StdEncoding.EncodeToString`: three octets give four characters; a
last block of one or two octets is padded with `=`. -/
def EncodeToString : List Byte → GoString
  | a :: b :: c :: rest =>
    let val := group24 a.val b.val c.val
    encodeChar (val / 262144) :: encodeChar (val / 4096) :: encodeChar (val / 64)
      :: encodeChar val :: EncodeToString rest
  | [a, b] =>
    let val := group24 a.val b.val 0
    [encodeChar (val / 262144), encodeChar (val / 4096), encodeChar (val / 64), padChar]
  | [a] =>
    let val := group24 a.val 0 0
    [encodeChar (val / 262144), encodeChar (val / 4096), padChar, padChar]
  | [] => []

/-- The loop `for si < len(src) && (src[si] == '\n' || src[si] == '\r')` that skips
line breaks. -/
def skipNewlines : List Byte → List Byte
  | c :: rest => if c = 10 ∨ c = 13 then skipNewlines rest else c :: rest
  | [] => []

/-- The end of the input inside `decodeQuantum`: clean when no sextet of a quantum
has been read, corrupt otherwise (padding is required). -/
def decodeEnd (dbuf : List Nat) : List Byte × Bool :=
  match dbuf with
  | [] => ([], false)
  | _ => ([], true)

/-- The three bytes of a full quantum `dbuf` of four sextets. -/
def quantumBytes (dbuf : List Nat) : List Byte :=
  match dbuf with
  | [d0, d1, d2, d3] =>
    let val := sextets24 d0 d1 d2 d3
    [toByte (val / 65536), toByte (val / 256), toByte val]
  | _ => []

/-- The byte `c` is not in the alphabet and is no line break: anything but `=` is
corrupt; `=` after two sextets must be followed by a second `=` and ends the
input with one byte; `=` after three sextets ends the input with two bytes;
non-blank input after the padding is reported as an error. -/
def decodePadding (c : Byte) (rest : List Byte) (dbuf : List Nat) : List Byte × Bool :=
  if c ≠ padChar then ([], true)
  else
    match dbuf with
    | [d0, d1] =>
      match skipNewlines rest with
      | [] => ([], true)
      | p :: rest2 =>
        if p ≠ padChar then ([], true)
        else
          let val := sextets24 d0 d1 0 0
          ([toByte (val / 65536)], decide (skipNewlines rest2 ≠ []))
    | [d0, d1, d2] =>
      let val := sextets24 d0 d1 d2 0
      ([toByte (val / 65536), toByte (val / 256)], decide (skipNewlines rest ≠ []))
    | _ => ([], true)

/-- The decoding loop, quantum by quantum. `dbuf` holds the sextets of the quantum
read so far. The result is the bytes written and whether a `CorruptInputError`
was reported. -/
def decodeLoop : List Byte → List Nat → List Byte × Bool
  | [], dbuf => decodeEnd dbuf
  | c :: rest, dbuf =>
    match decodeMap c with
    | some out =>
      if dbuf.length = 3 then
        (quantumBytes (dbuf ++ [out]) ++ (decodeLoop rest []).1, (decodeLoop rest []).2)
      else decodeLoop rest (dbuf ++ [out])
    | none =>
      if c = 10 ∨ c = 13 then decodeLoop rest dbuf
      else decodePadding c rest dbuf

/-- The function `StdEncoding.DecodeString`: the decoded bytes, and whether the
error is non-nil. -/
def DecodeString (s : GoString) : List Byte × Bool := decodeLoop s []

end base64

namespace helper

/-- The function `Siddecode`: the error of `DecodeString` is discarded, the SID is
decoded from whatever bytes came back, and its string and RID are returned. -/
def Siddecode (input : GoString) : Option (GoString × Int) := do
  let (bsid, _) := base64.DecodeString input
  let sid ← Decode bsid
  let s := sid.String
  let rid ← sid.RID
  pure (s, rid)

end helper

namespace client

/-! ### The directory seen from the services

The services talk to the directory through the object repository
(`searchObject`, `createObject`, `updateObject`, `deleteObject`) and, for some
requests, directly through the connection (`conn.Modify`, `conn.ModifyDN`).
Every such call is recorded in a trace, and the directory is an arbitrary
function from the history of calls to the reply of the latest one. -/

/-- A Go `map[string][]string`, as the list of its entries. -/
abbrev Attributes := List (GoString × List GoString)

/-- The map index `m[key]`: the nil slice when the key is absent. -/
def mapIndex (m : Attributes) (key : GoString) : List GoString := (m.lookup key).getD []

/-- Modelled from the spec: the type `ADObject` of the object repository, the
DirectoryEntry of the data model, a DN with a map from attribute name to the
ordered sequence of its values. -/
structure ADObject where
  dn : GoString
  attributes : Attributes
  deriving DecidableEq, Repr

/-- The kind of a change of an `ldap.ModifyRequest`. -/
inductive ChangeOp where
  | Add
  | Replace
  deriving DecidableEq, Repr

/-- One change of an `ldap.ModifyRequest`. -/
structure Change where
  op : ChangeOp
  attrType : GoString
  attrVals : List GoString
  deriving DecidableEq, Repr

/-- A call that leaves a service for the directory, with its arguments. -/
inductive Call where
  | searchObject (filter baseDN : GoString) (attributes : List GoString)
  | createObject (dn : GoString) (classes : List GoString) (attributes : Attributes)
  | updateObject (dn : GoString) (classes : List GoString) (added changed removed : Attributes)
  | deleteObject (dn : GoString)
  | Modify (dn : GoString) (changes : List Change)
  | ModifyDN (dn newRDN : GoString) (deleteOldRDN : Bool) (newSuperior : GoString)
  deriving DecidableEq, Repr

/-- The calls that change the directory: all but the search. -/
def Call.isMutation : Call → Bool
  | .searchObject _ _ _ => false
  | _ => true

/-- A Go `error`: nil, or an error with its message. -/
abbrev GoError := Option GoString

/-- What the directory answers to a call: the entries found (for a search) and the
error. -/
structure Reply where
  objects : List ADObject
  err : GoError
  deriving DecidableEq, Repr

/-- The directory: the reply to the latest call of a history of calls. -/
abbrev Env := List Call → Reply

/-- How a Go function ends: it returns, it panics (index out of range, nil
dereference), or the process is terminated by `log.Fatal`. -/
inductive Outcome (α : Type) where
  | ret (a : α)
  | panic
  | fatal
  deriving DecidableEq, Repr

/-- A computation of a service: from the directory and the trace so far to an
outcome and the trace extended by the calls made. -/
def Op (α : Type) : Type := Env → List Call → Outcome α × List Call

/-- Sequencing: a panic or a termination ends the computation. -/
def Op.bind {α β : Type} (m : Op α) (f : α → Op β) : Op β := fun env tr =>
  match m env tr with
  | (.ret a, tr1) => f a env tr1
  | (.panic, tr1) => (.panic, tr1)
  | (.fatal, tr1) => (.fatal, tr1)

instance : Monad Op where
  pure a := fun _ tr => (.ret a, tr)
  bind := Op.bind

/-- A run-time panic. -/
def panic {α : Type} : Op α := fun _ tr => (.panic, tr)

/-- The call `log.Fatal`, which terminates the process. -/
def logFatal {α : Type} : Op α := fun _ tr => (.fatal, tr)

/-- One call to the directory: it is appended to the trace and answered. -/
def call (c : Call) : Op Reply := fun env tr => (.ret (env (tr ++ [c])), tr ++ [c])

/-- The index expression `vals[0]` on a slice of strings. -/
def index0 (vals : List GoString) : Op GoString :=
  match vals with
  | v :: _ => pure v
  | [] => panic

/-- A pure computation that may panic. -/
def ofOption {α : Type} (x : Option α) : Op α :=
  match x with
  | some a => pure a
  | none => panic

/-- Modelled from the spec: `ADObject.searchObject`, the search primitive of the
object repository; it returns the entries found, or an error. -/
def searchObject (filter baseDN : GoString) (attributes : List GoString) : Op Reply :=
  call (.searchObject filter baseDN attributes)

/-- Modelled from the spec: `ADObject.createObject`, the create primitive of the
object repository. -/
def createObject (dn : GoString) (classes : List GoString) (attributes : Attributes) :
    Op GoError := do
  let r ← call (.createObject dn classes attributes)
  pure r.err

/-- Modelled from the spec: `ADObject.updateObject`, the update primitive of the
object repository, with the attributes added, changed and removed. -/
def updateObject (dn : GoString) (classes : List GoString) (added changed removed : Attributes) :
    Op GoError := do
  let r ← call (.updateObject dn classes added changed removed)
  pure r.err

/-- Modelled from the spec: `ADObject.deleteObject`, the delete primitive of the
object repository. -/
def deleteObject (dn : GoString) : Op GoError := do
  let r ← call (.deleteObject dn)
  pure r.err

/-- The transport call `conn.Modify` on a modify request. -/
def Modify (dn : GoString) (changes : List Change) : Op GoError := do
  let r ← call (.Modify dn changes)
  pure r.err

/-- The transport call `conn.ModifyDN` on a modify-DN request. -/
def ModifyDN (dn newRDN : GoString) (deleteOldRDN : Bool) (newSuperior : GoString) :
    Op GoError := do
  let r ← call (.ModifyDN dn newRDN deleteOldRDN newSuperior)
  pure r.err

/-- What the services take from the Go libraries and from the clock. -/
structure Lib where
  /-- The value of `time.Now().Format("20060102")`. -/
  today : GoString
  /-- The value of `fmt.Sprintf("%q", s)`. -/
  quote : GoString → GoString
  /-- The UTF-16 little-endian encoder of `golang.org/x/text`, which may fail. -/
  utf16 : GoString → Except GoString GoString
  /-- The function `strings.ToLower`. -/
  toLower : GoString → GoString
  /-- The function `strings.EqualFold`. -/
  EqualFold : GoString → GoString → Bool

/-- The fields of `Conn` that the services read. -/
structure Client where
  domain : GoString

/-- The method `Client.getDomainDN`: `dc=` and the labels of the domain joined by
`,dc=`, in lower case. -/
def getDomainDN (lib : Lib) (c : Client) : GoString :=
  lib.toLower (lit "dc=" ++ (lit ",dc=").intercalate (c.domain.splitOn 46))

/-! ### Users (`ADUser.go`) -/

/-- The struct `ADUserRequest`. -/
structure ADUserRequest where
  firstname : GoString
  lastname : GoString
  name : GoString
  cn : GoString
  sn : GoString
  baseOU : GoString
  description : GoString
  email : GoString
  newOU : GoString
  newName : GoString
  adAccountName : GoString
  dn : GoString
  cdir : GoString
  given_name : GoString
  password : GoString

/-- The struct `ADUser`. -/
structure ADUser where
  name : GoString
  dn : GoString
  sn : GoString
  sid : GoString
  deriving DecidableEq, Repr

/-- The search that `getUser` issues. -/
def userSearch (name baseOU : GoString) : Call :=
  .searchObject (lit "(&(objectclass=*)(cn=" ++ name ++ lit "))") baseOU
    [lit "name", lit "cn", lit "sAMAccountName", lit "description", lit "sn", lit "objectSid"]

/-- The method `getUser`. -/
def getUser (name baseOU : GoString) : Op (Option ADUser × GoError) := do
  let attributes := [lit "name", lit "cn", lit "sAMAccountName", lit "description", lit "sn",
    lit "objectSid"]
  let filter := lit "(&(objectclass=*)(cn=" ++ name ++ lit "))"
  let r ← searchObject filter baseOU attributes
  match r.err with
  | some err =>
    pure (none, some (lit "getUser - failed to search " ++ name ++ lit " in " ++ baseOU
      ++ lit ": " ++ err))
  | none =>
    match r.objects with
    | [] => pure (none, none)
    | _ :: _ :: _ =>
      pure (none, some (lit
        "getUser - more than one user object with the same name under the same base ou found"))
    | [ret0] => do
      let name ← index0 (mapIndex ret0.attributes (lit "cn"))
      let sn ← index0 (mapIndex ret0.attributes (lit "sn"))
      let sid ← index0 (mapIndex ret0.attributes (lit "objectSid"))
      pure (some { name := name, dn := ret0.dn, sn := sn, sid := sid }, none)

/-- The local `fullName` of `createUser`. -/
def userFullName (u : ADUserRequest) : GoString := u.given_name ++ lit " " ++ u.sn

/-- The local `description` of `createUser`. -/
def userDescription (lib : Lib) (u : ADUserRequest) : GoString :=
  u.name ++ lit "," ++ lit "897" ++ lit "/" ++ lit "C" ++ lit "/" ++ u.cdir ++ lit "//"
    ++ userFullName u ++ lit "," ++ lit "CD=" ++ lib.today ++ lit "," ++ lit "RI="
    ++ lit "OPAASAUTO" ++ lit "," ++ lit "#CUST#"

/-- The map `attributes` that `createUser` fills. -/
def userAttributes (lib : Lib) (c : Client) (u : ADUserRequest) : Attributes :=
  [ (lit "sAMAccountName", [u.name]),
    (lit "userPrincipalName", [u.name ++ lit "@" ++ c.domain]),
    (lit "name", [userFullName u]),
    (lit "givenName", [u.given_name]),
    (lit "displayName", [userFullName u]),
    (lit "sn", [u.sn]),
    (lit "description", [userDescription lib u]),
    (lit "userAccountControl", [itoa 0x0202]),
    (lit "mail", [u.email]),
    (lit "accountExpires", [itoa 0x00000000]) ]

/-- The local `usercn` of `createUser`. -/
def usercn (u : ADUserRequest) : GoString := lit "CN=" ++ u.name ++ lit "," ++ u.baseOU

/-- The method `createUser`. The text that `fmt.Errorf` appends for the surplus
arguments of the password error is not part of the message here. -/
def createUser (lib : Lib) (c : Client) (u : ADUserRequest) : Op GoError := do
  let (tmp, err) ← getUser u.name u.baseOU
  match err with
  | some err => pure (some (lit "createUser - talking to active directory failed: " ++ err))
  | none =>
    match tmp with
    | some _ =>
      -- the comparison of name and DN only guards a log line
      pure (some (lit "createUser - User object " ++ u.name
        ++ lit " already exists under this base ou " ++ u.baseOU))
    | none =>
      match lib.utf16 (lib.quote u.password) with
      | .error _ => logFatal
      | .ok encoded => do
        let err ← createObject (lit "CN=" ++ u.name ++ lit "," ++ u.baseOU)
          [lit "organizationalPerson", lit "person", lit "top", lit "user"]
          (userAttributes lib c u)
        match err with
        | some err => pure (some (lit "create User - Failed to create the user: " ++ err))
        | none => do
          let err ← Modify (usercn u) [⟨.Replace, lit "unicodePwd", [encoded]⟩]
          match err with
          | some _ => pure (some (lit "failed to execute the modify password request"))
          | none => do
            let err ← Modify (usercn u) [⟨.Replace, lit "userAccountControl", [itoa 0x0200]⟩]
            match err with
            | some _ => logFatal
            | none => do
              let (userdata, err) ← getUser u.name u.baseOU
              match err with
              | some err =>
                pure (some (lit "createUser - talking to active directory failed: " ++ err))
              | none =>
                match userdata with
                | none => panic
                | some userdata => do
                  let data := base64.EncodeToString userdata.sid
                  let (_, rid) ← ofOption (helper.Siddecode data)
                  let generatedNumber := rid + 1000
                  let err ← Modify (usercn u)
                    [⟨.Replace, lit "uidNumber", [itoa generatedNumber]⟩]
                  match err with
                  | some _ => logFatal
                  | none => pure none

/-- The method `moveUser`. -/
def moveUser (cn baseOU newOU : GoString) : Op GoError := do
  let (tmp, err) ← getUser cn baseOU
  match err with
  | some err => pure (some (lit "moveOU - talking to active directory failed: " ++ err))
  | none =>
    match tmp with
    | none =>
      pure (some (lit "moveOU - ou object " ++ cn ++ lit " does not exists under " ++ baseOU
        ++ lit ": " ++ lit "%!s(<nil>)"))
    | some tmp =>
      if tmp.dn = lit "ou=" ++ cn ++ lit "," ++ newOU then pure none
      else do
        let UID := lit "ou=" ++ cn
        let err ← ModifyDN (lit "ou=" ++ cn ++ lit "," ++ baseOU) UID true newOU
        match err with
        | some err => pure (some (lit "moveOU - failed to move ou: " ++ err))
        | none => pure none

/-- The method `deleteUser`. -/
def deleteUser (lib : Lib) (dn : GoString) : Op GoError := do
  let r ← searchObject (lit "(objectclass=organizationalUnit)") dn []
  match r.err with
  | some err => pure (some (lit "deleteOU - failed remove ou " ++ dn ++ lit ": " ++ err))
  | none =>
    match r.objects with
    | [] => deleteObject dn
    | objects0 :: rest =>
      if (objects0 :: rest).length > 1 ∨ ¬ lib.EqualFold objects0.dn dn = true then
        pure (some (lit "deleteOU - failed to delete ou " ++ dn
          ++ lit " because it has child items: " ++ objects0.dn))
      else deleteObject dn

/-- The method `addUserToGroup`. -/
def addUserToGroup (userdn groupdn : GoString) : Op GoError := do
  let err ← Modify groupdn [⟨.Add, lit "member", [userdn]⟩]
  match err with
  | some _ => logFatal
  | none => pure none

/-! ### Groups (`ADGroup.go`) -/

/-- The struct `ADGroup`. -/
structure ADGroup where
  name : GoString
  dn : GoString
  description : GoString
  deriving DecidableEq, Repr

/-- The struct `ADGroupRequest`. -/
structure ADGroupRequest where
  group_name : GoString
  group_base_ou : GoString
  group_description : GoString

/-- The search that `getGroup` issues. -/
def groupSearch (name baseOU : GoString) : Call :=
  .searchObject (lit "(&(objectclass=*)(cn=" ++ name ++ lit "))") baseOU
    [lit "name", lit "cn", lit "sAMAccountName", lit "description"]

/-- The method `getGroup`. -/
def getGroup (name baseOU : GoString) : Op (Option ADGroup × GoError) := do
  let attributes := [lit "name", lit "cn", lit "sAMAccountName", lit "description"]
  let filter := lit "(&(objectclass=*)(cn=" ++ name ++ lit "))"
  let r ← searchObject filter baseOU attributes
  match r.err with
  | some err =>
    pure (none, some (lit "getUser - failed to search " ++ name ++ lit " in " ++ baseOU
      ++ lit ": " ++ err))
  | none =>
    match r.objects with
    | [] => pure (none, none)
    | _ :: _ :: _ =>
      pure (none, some (lit
        "getUser - more than one user object with the same name under the same base ou found"))
    | [ret0] => do
      let name ← index0 (mapIndex ret0.attributes (lit "cn"))
      let description ← index0 (mapIndex ret0.attributes (lit "sAMAccountName"))
      pure (some { name := name, dn := ret0.dn, description := description }, none)

/-- The map `attributes` that `createGroup` fills. -/
def groupAttributes (gc : ADGroupRequest) : Attributes :=
  [ (lit "sAMAccountName", [gc.group_name]),
    (lit "name", [gc.group_name]),
    (lit "instanceType", [itoa 0x00000004]),
    (lit "groupType", [itoa 0x80000002]) ]

/-- The method `createGroup`. -/
def createGroup (gc : ADGroupRequest) : Op GoError := do
  let (tmp, err) ← getGroup gc.group_name gc.group_base_ou
  match err with
  | some err => pure (some (lit "createUser - talking to active directory failed: " ++ err))
  | none =>
    match tmp with
    | some _ =>
      -- the comparison of name and DN only guards a log line
      pure (some (lit "createGroup - User object " ++ gc.group_name
        ++ lit " already exists under this base ou " ++ gc.group_base_ou))
    | none => do
      let err ← createObject (lit "CN=" ++ gc.group_name ++ lit "," ++ gc.group_base_ou)
        [lit "top", lit "group"] (groupAttributes gc)
      match err with
      | some err => pure (some (lit "create User - Failed to create the group: " ++ err))
      | none => pure none

/-- The method `deleteGroup`. -/
def deleteGroup (lib : Lib) (dn : GoString) : Op GoError := do
  let r ← searchObject (lit "(objectclass=organizationalUnit)") dn []
  match r.err with
  | some err => pure (some (lit "deleteOU - failed remove ou " ++ dn ++ lit ": " ++ err))
  | none =>
    match r.objects with
    | [] => deleteObject dn
    | objects0 :: rest =>
      if (objects0 :: rest).length > 1 ∨ ¬ lib.EqualFold objects0.dn dn = true then
        pure (some (lit "deleteOU - failed to delete ou " ++ dn
          ++ lit " because it has child items: " ++ objects0.dn))
      else deleteObject dn

/-! ### Organizational units (`ADOU.go`) -/

/-- The struct `ADOU`. -/
structure ADOU where
  name : GoString
  dn : GoString
  description : GoString
  deriving DecidableEq, Repr

/-- The search that `getOU` issues. -/
def ouSearch (name baseOU : GoString) : Call :=
  .searchObject (lit "(&(objectclass=organizationalUnit)(ou=" ++ name ++ lit "))") baseOU
    [lit "name", lit "ou", lit "description"]

/-- The method `getOU`. -/
def getOU (name baseOU : GoString) : Op (Option ADOU × GoError) := do
  let attributes := [lit "name", lit "ou", lit "description"]
  let filter := lit "(&(objectclass=organizationalUnit)(ou=" ++ name ++ lit "))"
  let r ← searchObject filter baseOU attributes
  match r.err with
  | some err =>
    pure (none, some (lit "getOU - failed to search " ++ name ++ lit " in " ++ baseOU
      ++ lit ": " ++ err))
  | none =>
    match r.objects with
    | [] => pure (none, none)
    | _ :: _ :: _ =>
      pure (none, some (lit
        "getOU - more than one ou object with the same name under the same base ou found"))
    | [ret0] => do
      let name ← index0 (mapIndex ret0.attributes (lit "ou"))
      let description ← index0 (mapIndex ret0.attributes (lit "description"))
      pure (some { name := name, dn := ret0.dn, description := description }, none)

/-- The method `updateOUDescription`. -/
def updateOUDescription (cn baseOU description : GoString) : Op GoError := do
  let (ou, err) ← getOU cn baseOU
  match err with
  | some err =>
    pure (some (lit "updateOUDescription - talking to active directory failed: " ++ err))
  | none =>
    match ou with
    | none => panic
    | some ou => do
      let err ← Modify ou.dn [⟨.Replace, lit "description", [description]⟩]
      match err with
      | some err =>
        pure (some (lit "updateOUDescription - failed to update " ++ ou.dn ++ lit ": " ++ err))
      | none => pure none

/-- The method `createOU`. -/
def createOU (name baseOU description : GoString) : Op GoError := do
  let (tmp, err) ← getOU name baseOU
  match err with
  | some err => pure (some (lit "createOU - talking to active directory failed: " ++ err))
  | none =>
    match tmp with
    | some tmp =>
      if tmp.name = name ∧ tmp.dn = lit "ou=" ++ name ++ lit "," ++ baseOU then
        updateOUDescription name baseOU description
      else
        pure (some (lit "createOU - ou object " ++ name
          ++ lit " already exists under this base ou " ++ baseOU))
    | none =>
      createObject (lit "ou=" ++ name ++ lit "," ++ baseOU) [lit "organizationalUnit", lit "top"]
        [(lit "ou", [name]), (lit "description", [description])]

/-- The method `moveOU`. -/
def moveOU (cn baseOU newOU : GoString) : Op GoError := do
  let (tmp, err) ← getOU cn baseOU
  match err with
  | some err => pure (some (lit "moveOU - talking to active directory failed: " ++ err))
  | none =>
    match tmp with
    | none =>
      pure (some (lit "moveOU - ou object " ++ cn ++ lit " does not exists under " ++ baseOU
        ++ lit ": " ++ lit "%!s(<nil>)"))
    | some tmp =>
      if tmp.dn = lit "ou=" ++ cn ++ lit "," ++ newOU then pure none
      else do
        let UID := lit "ou=" ++ cn
        let err ← ModifyDN (lit "ou=" ++ cn ++ lit "," ++ baseOU) UID true newOU
        match err with
        | some err => pure (some (lit "moveOU - failed to move ou: " ++ err))
        | none => pure none

/-- The method `deleteOU`. -/
def deleteOU (lib : Lib) (dn : GoString) : Op GoError := do
  let r ← searchObject (lit "(objectclass=organizationalUnit)") dn []
  match r.err with
  | some err => pure (some (lit "deleteOU - failed remove ou " ++ dn ++ lit ": " ++ err))
  | none =>
    match r.objects with
    | [] => deleteObject dn
    | objects0 :: rest =>
      if (objects0 :: rest).length > 1 ∨ ¬ lib.EqualFold objects0.dn dn = true then
        pure (some (lit "deleteOU - failed to delete ou " ++ dn
          ++ lit " because it has child items: " ++ objects0.dn))
      else deleteObject dn

/-! ### Computers (`ADComputer.go`) -/

/-- The struct `ADComputer`. -/
structure ADComputer where
  name : GoString
  dn : GoString
  description : GoString
  deriving DecidableEq, Repr

/-- The search that `getComputer` issues. -/
def computerSearch (lib : Lib) (c : Client) (name : GoString) : Call :=
  .searchObject (lit "(&(objectclass=computer)(name=" ++ name ++ lit "))") (getDomainDN lib c)
    [lit "cn", lit "description"]

/-- The method `getComputer`. -/
def getComputer (lib : Lib) (c : Client) (name : GoString) :
    Op (Option ADComputer × GoError) := do
  let domain := getDomainDN lib c
  let attributes := [lit "cn", lit "description"]
  let filter := lit "(&(objectclass=computer)(name=" ++ name ++ lit "))"
  let r ← searchObject filter domain attributes
  match r.err with
  | some err =>
    pure (none, some (lit "getComputer - searching for computer object " ++ name
      ++ lit " failed: " ++ err))
  | none =>
    match r.objects with
    | [] => pure (none, none)
    | _ :: _ :: _ =>
      pure (none, some (lit
        "getComputer - more than one computer object with the same name found"))
    | [ret0] => do
      let name ← index0 (mapIndex ret0.attributes (lit "cn"))
      let description ← index0 (mapIndex ret0.attributes (lit "description"))
      pure (some { name := name, dn := ret0.dn, description := description }, none)

/-- The method `updateComputerDescription`. -/
def updateComputerDescription (cn ou description : GoString) : Op GoError :=
  updateObject (lit "cn=" ++ cn ++ lit "," ++ ou) [] [] [(lit "description", [description])] []

/-- The method `createComputer`. -/
def createComputer (lib : Lib) (c : Client) (cn ou description : GoString) : Op GoError := do
  let (tmp, err) ← getComputer lib c cn
  match err with
  | some err => pure (some (lit "createComputer - talking to active directory failed: " ++ err))
  | none =>
    match tmp with
    | some tmp =>
      if tmp.name = cn ∧ tmp.dn = lit "cn=" ++ cn ++ lit "," ++ ou then
        updateComputerDescription cn ou description
      else
        pure (some (lit "createComputer - computer object " ++ cn
          ++ lit " already exists in a different ou"))
    | none =>
      createObject (lit "cn=" ++ cn ++ lit "," ++ ou) [lit "computer"]
        [ (lit "name", [cn]),
          (lit "sAMAccountName", [cn ++ lit "$"]),
          (lit "userAccountControl", [lit "4096"]),
          (lit "description", [description]) ]

/-- The method `updateComputerOU`. -/
def updateComputerOU (lib : Lib) (c : Client) (cn ou newOU : GoString) : Op GoError := do
  let (tmp, err) ← getComputer lib c cn
  match err with
  | some err =>
    pure (some (lit "updateComputerOU - talking to active directory failed: " ++ err))
  | none =>
    match tmp with
    | none =>
      pure (some (lit "updateComputerOU - computer object " ++ cn ++ lit " does not exists: "
        ++ lit "%!s(<nil>)"))
    | some tmp =>
      if lib.EqualFold tmp.dn (lit "cn=" ++ cn ++ lit "," ++ newOU) then pure none
      else do
        let computerUID := lit "cn=" ++ cn
        let err ← ModifyDN (lit "cn=" ++ cn ++ lit "," ++ ou) computerUID true newOU
        match err with
        | some err =>
          pure (some (lit "updateComputerOU - failed to move computer object: " ++ err))
        | none => pure none

end client

namespace client

/-! ### The calls of `createUser`, and the examples -/

/-- The create call of `createUser`. -/
def userCreateCall (lib : Lib) (c : Client) (u : ADUserRequest) : Call :=
  .createObject (lit "CN=" ++ u.name ++ lit "," ++ u.baseOU)
    [lit "organizationalPerson", lit "person", lit "top", lit "user"] (userAttributes lib c u)

/-- The request of `createUser` that replaces `unicodePwd`. -/
def passwordCall (u : ADUserRequest) (encoded : GoString) : Call :=
  .Modify (usercn u) [⟨.Replace, lit "unicodePwd", [encoded]⟩]

/-- The request of `createUser` that replaces `userAccountControl` by 512. -/
def enableCall (u : ADUserRequest) : Call :=
  .Modify (usercn u) [⟨.Replace, lit "userAccountControl", [itoa 0x0200]⟩]

/-- The request of `createUser` that replaces `uidNumber` by `value`. -/
def uidNumberCall (u : ADUserRequest) (value : GoString) : Call :=
  .Modify (usercn u) [⟨.Replace, lit "uidNumber", [value]⟩]

/-- The calls of a trace that change the directory. -/
def mutations (tr : List Call) : List Call := tr.filter Call.isMutation

/-- An instance of the library functions on ASCII text: quoting puts the string
between double quotes, the encoder writes each byte followed by a zero byte, and
case is folded on the letters `A`-`Z`. -/
def exampleLib : Lib where
  today := lit "20240101"
  quote := fun s => [34] ++ s ++ [34]
  utf16 := fun s => .ok (s.flatMap (fun b => [b, 0]))
  toLower := fun s => s.map (fun b => if 65 ≤ b.val ∧ b.val ≤ 90 then b + 32 else b)
  EqualFold := fun s t =>
    s.map (fun b => if 65 ≤ b.val ∧ b.val ≤ 90 then b + 32 else b)
      = t.map (fun b => if 65 ≤ b.val ∧ b.val ≤ 90 then b + 32 else b)

/-- The client of the examples. -/
def exampleClient : Client := { domain := lit "example.com" }

/-- The container of the examples. -/
def peopleOU : GoString := lit "ou=People,dc=example,dc=com"

/-- Another container. -/
def staffOU : GoString := lit "ou=Staff,dc=example,dc=com"

/-- The request for the user `jdoe` under `peopleOU`. -/
def jdoeRequest : ADUserRequest where
  firstname := lit "John"
  lastname := lit "Doe"
  name := lit "jdoe"
  cn := lit "jdoe"
  sn := lit "Doe"
  baseOU := peopleOU
  description := lit "a user"
  email := lit "jdoe@example.com"
  newOU := []
  newName := []
  adAccountName := lit "jdoe"
  dn := []
  cdir := lit "dir"
  given_name := lit "John"
  password := lit "secret"

/-- The entry of the user `jdoe` under the container `ou`, with the attributes
`cn`, `sn`, `sAMAccountName`, `description` and the `objectSid` of the example. -/
def jdoeEntry (ou : GoString) : ADObject where
  dn := lit "cn=jdoe," ++ ou
  attributes :=
    [ (lit "cn", [lit "jdoe"]), (lit "sn", [lit "Doe"]), (lit "sAMAccountName", [lit "jdoe"]),
      (lit "description", [lit "a user"]), (lit "objectSid", [helper.exampleBlob]) ]

/-- The entry of the organizational unit `eng` under the container `ou`, with a
description. -/
def engEntry (ou : GoString) : ADObject where
  dn := lit "ou=eng," ++ ou
  attributes := [ (lit "ou", [lit "eng"]), (lit "description", [lit "engineering"]) ]

/-- An entry that has a DN and the naming attributes `cn` and `ou`, and nothing
else: no `description`, `sn`, `sAMAccountName` or `objectSid`. -/
def bareEntry : ADObject where
  dn := lit "cn=eng,ou=People,dc=example,dc=com"
  attributes := [ (lit "cn", [lit "eng"]), (lit "ou", [lit "eng"]) ]

/-- A directory that answers every call with the entries `objs` and no error. -/
def constEnv (objs : List ADObject) : Env := fun _ => ⟨objs, none⟩

/-- A directory in which `jdoe` does not exist at first and every call succeeds:
the first call finds nothing, and every later call is answered with the entry of
`jdoe` under `peopleOU`. -/
def freshEnv : Env := fun tr =>
  match tr with
  | [_] => ⟨[], none⟩
  | _ => ⟨[jdoeEntry peopleOU], none⟩

/-- The search for child entries that `deleteUser`, `deleteGroup` and `deleteOU`
issue under `dn`. -/
def childSearch (dn : GoString) : Call :=
  .searchObject (lit "(objectclass=organizationalUnit)") dn []

/-- The member request of `addUserToGroup`. -/
def memberCall (userdn groupdn : GoString) : Call :=
  .Modify groupdn [⟨.Add, lit "member", [userdn]⟩]

/-- The update call of `updateComputerDescription`. -/
def computerDescriptionCall (cn ou description : GoString) : Call :=
  .updateObject (lit "cn=" ++ cn ++ lit "," ++ ou) [] [] [(lit "description", [description])] []

/-- The directory `freshEnv` in which the `k`-th call of the run fails. -/
def failingEnv (k : Nat) : Env := fun tr =>
  if tr.length = k then ⟨[], some (lit "LDAP Result Code 53")⟩ else freshEnv tr

/-- A directory that holds no entry: every search succeeds and finds nothing, and
every other call fails, the object being absent. -/
def absentEnv : Env := fun tr =>
  match tr.getLast? with
  | some (.searchObject _ _ _) => ⟨[], none⟩
  | _ => ⟨[], some (lit "LDAP Result Code 32: No Such Object")⟩

end client

namespace helper

/-! ### Decoding agrees with the layout -/

theorem byteIndex_eq_byteAt (b : List Byte) (i : Nat) (h : i < b.length) :
    byteIndex b i = some (byteAt b i) := by
  simp [byteIndex, byteAt, List.getD, List.getElem?_eq_getElem h]

theorem byteAt_lt (b : List Byte) (i : Nat) : byteAt b i < 256 := (b.getD i 0).isLt

theorem and_ff_eq (x : Nat) (h : x < 256) : x &&& 0xFF = x :=
  Nat.and_pow_two_sub_one_of_lt_two_pow (n := 8) h

/-- Or-ing a multiple of `2^k` with a number below `2^k` adds them. -/
theorem lor_eq_add (k a r : Nat) (hd : 2 ^ k ∣ a) (hr : r < 2 ^ k) : a ||| r = a + r := by
  obtain ⟨q, rfl⟩ := hd
  exact (Nat.mul_add_lt_is_or hr q).symm

/-- Or-ing a number below `2^k` with a multiple of `2^k` adds them. -/
theorem lor_eq_add_left (k a r : Nat) (hr : r < 2 ^ k) (hd : 2 ^ k ∣ a) : r ||| a = r + a := by
  rw [Nat.lor_comm, lor_eq_add k a r hd hr, Nat.add_comm]

theorem authority_or (x2 x3 x4 x5 x6 x7 : Nat) (h3 : x3 < 256) (h4 : x4 < 256)
    (h5 : x5 < 256) (h6 : x6 < 256) (h7 : x7 < 256) :
    0 ||| x2 * 2 ^ 40 ||| x3 * 2 ^ 32 ||| x4 * 2 ^ 24 ||| x5 * 2 ^ 16 ||| x6 * 2 ^ 8 ||| x7 * 2 ^ 0
      = x2 * 256 ^ 5 + (x3 * 256 ^ 4 + (x4 * 256 ^ 3 + (x5 * 256 ^ 2 + (x6 * 256 ^ 1 +
          (x7 * 256 ^ 0 + 0))))) := by
  rw [Nat.zero_or]
  rw [lor_eq_add 40 (x2 * 2 ^ 40) (x3 * 2 ^ 32) (by omega) (by omega)]
  rw [lor_eq_add 32 (x2 * 2 ^ 40 + x3 * 2 ^ 32) (x4 * 2 ^ 24) (by omega) (by omega)]
  rw [lor_eq_add 24 (x2 * 2 ^ 40 + x3 * 2 ^ 32 + x4 * 2 ^ 24) (x5 * 2 ^ 16) (by omega) (by omega)]
  rw [lor_eq_add 16 (x2 * 2 ^ 40 + x3 * 2 ^ 32 + x4 * 2 ^ 24 + x5 * 2 ^ 16) (x6 * 2 ^ 8)
    (by omega) (by omega)]
  rw [lor_eq_add 8 (x2 * 2 ^ 40 + x3 * 2 ^ 32 + x4 * 2 ^ 24 + x5 * 2 ^ 16 + x6 * 2 ^ 8)
    (x7 * 2 ^ 0) (by omega) (by omega)]
  omega

theorem subAuthority_or (x0 x1 x2 x3 : Nat) (h0 : x0 < 256) (h1 : x1 < 256) (h2 : x2 < 256) :
    0 ||| x0 * 2 ^ 0 ||| x1 * 2 ^ 8 ||| x2 * 2 ^ 16 ||| x3 * 2 ^ 24
      = x0 * 256 ^ 0 + (x1 * 256 ^ 1 + (x2 * 256 ^ 2 + (x3 * 256 ^ 3 + 0))) := by
  rw [Nat.zero_or]
  rw [lor_eq_add_left 8 (x1 * 2 ^ 8) (x0 * 2 ^ 0) (by omega) (by omega)]
  rw [lor_eq_add_left 16 (x2 * 2 ^ 16) (x0 * 2 ^ 0 + x1 * 2 ^ 8) (by omega) (by omega)]
  rw [lor_eq_add_left 24 (x3 * 2 ^ 24) (x0 * 2 ^ 0 + x1 * 2 ^ 8 + x2 * 2 ^ 16) (by omega)
    (by omega)]
  omega

theorem decodeAuthority_eq (b : List Byte) (h : 8 ≤ b.length) :
    decodeAuthority b = some (layoutAuthority b) := by
  simp only [decodeAuthority, List.foldlM_cons, List.foldlM_nil]
  rw [byteIndex_eq_byteAt b 2 (by omega), byteIndex_eq_byteAt b 3 (by omega),
    byteIndex_eq_byteAt b 4 (by omega), byteIndex_eq_byteAt b 5 (by omega),
    byteIndex_eq_byteAt b 6 (by omega), byteIndex_eq_byteAt b 7 (by omega)]
  simp only [Option.some_bind, Option.pure_def, Option.bind_eq_bind, Nat.shiftLeft_eq]
  exact congrArg some (authority_or _ _ _ _ _ _ (byteAt_lt b 3) (byteAt_lt b 4)
    (byteAt_lt b 5) (byteAt_lt b 6) (byteAt_lt b 7))

theorem decodeSubAuthority_eq (b : List Byte) (i : Nat) (h : 8 + 4 * i + 4 ≤ b.length) :
    decodeSubAuthority b (8 + 4 * i) = some (layoutSubAuthority b i) := by
  simp only [decodeSubAuthority, List.range, List.range.loop, List.foldlM_cons, List.foldlM_nil]
  rw [byteIndex_eq_byteAt b _ (by omega), byteIndex_eq_byteAt b _ (by omega),
    byteIndex_eq_byteAt b _ (by omega), byteIndex_eq_byteAt b _ (by omega)]
  simp only [Option.some_bind, Option.pure_def, Option.bind_eq_bind, Nat.shiftLeft_eq,
    and_ff_eq _ (byteAt_lt b _)]
  exact congrArg some (subAuthority_or _ _ _ _ (byteAt_lt b _) (byteAt_lt b _) (byteAt_lt b _))

theorem decodeSubAuthorities_eq (b : List Byte) (n : Nat) (h : 8 + 4 * n ≤ b.length) :
    decodeSubAuthorities b n
      = some (8 + 4 * n, (List.range n).map (fun i => (layoutSubAuthority b i : Int))) := by
  induction n with
  | zero => rfl
  | succ n ih =>
    have ih1 := ih (by omega)
    unfold decodeSubAuthorities at ih1 ⊢
    rw [List.range_succ, List.foldlM_append, ih1]
    simp only [Option.some_bind, Option.bind_eq_bind, List.foldlM_cons, List.foldlM_nil]
    rw [decodeSubAuthority_eq b n (by omega)]
    simp only [Option.some_bind, Option.pure_def, Option.bind_eq_bind, List.map_append,
      List.map_cons, List.map_nil]
    congr 2

theorem Decode_eq_layoutSID (b : List Byte) (h : 8 + 4 * byteAt b 1 ≤ b.length) :
    Decode b = some (layoutSID b) := by
  unfold Decode
  rw [byteIndex_eq_byteAt b 0 (by omega), byteIndex_eq_byteAt b 1 (by omega),
    decodeAuthority_eq b (by omega)]
  simp only [Option.some_bind, Option.bind_eq_bind, and_ff_eq _ (byteAt_lt b 1)]
  rw [decodeSubAuthorities_eq b _ h]
  rfl

theorem layoutAuthority_lt (b : List Byte) : layoutAuthority b < 2 ^ 48 := by
  have h2 := byteAt_lt b (2 + 0)
  have h3 := byteAt_lt b (2 + 1)
  have h4 := byteAt_lt b (2 + 2)
  have h5 := byteAt_lt b (2 + 3)
  have h6 := byteAt_lt b (2 + 4)
  have h7 := byteAt_lt b (2 + 5)
  simp only [layoutAuthority, List.range, List.range.loop, List.map_cons, List.map_nil,
    List.sum_cons, List.sum_nil]
  omega

theorem layoutSubAuthority_lt (b : List Byte) (i : Nat) : layoutSubAuthority b i < 2 ^ 32 := by
  have h0 := byteAt_lt b (8 + 4 * i + 0)
  have h1 := byteAt_lt b (8 + 4 * i + 1)
  have h2 := byteAt_lt b (8 + 4 * i + 2)
  have h3 := byteAt_lt b (8 + 4 * i + 3)
  simp only [layoutSubAuthority, List.range, List.range.loop, List.map_cons, List.map_nil,
    List.sum_cons, List.sum_nil]
  omega

theorem RID_eq_getLast? (sid : SID) : sid.RID = sid.SubAuthorities.getLast? := by
  unfold SID.RID sliceIndex
  rcases List.eq_nil_or_concat sid.SubAuthorities with h | ⟨xs, x, h⟩
  · rw [h]; rfl
  · rw [h]
    have hneg : ¬ (((xs ++ [x]).length : Int) - 1 < 0) := by
      simp only [List.length_append, List.length_singleton]; omega
    have hidx : (((xs ++ [x]).length : Int) - 1).toNat = xs.length := by
      simp only [List.length_append, List.length_singleton]; omega
    simp only [hneg, if_false, hidx, List.getLast?_append, List.getLast?_singleton]
    simp

/-! ### The claims on the decoder -/

/-- C1: a blob of length 28 whose count byte is 5 decodes to an identifier whose
`String()` is `S-<b[0]>-<authority>-a-b-c-d-e` in decimal, the authority being
the value of bytes 2..7 and `a..e` the five encoded sub-authorities in order, and
whose `RID()` is `e`. -/
theorem decode_string_rid_five (b : List Byte) (hlen : b.length = 28) (hcnt : byteAt b 1 = 5) :
    (Decode b).map SID.String
        = some (lit "S-" ++ itoa (byteAt b 0) ++ lit "-" ++ itoa (layoutAuthority b)
            ++ lit "-" ++ itoa (layoutSubAuthority b 0)
            ++ lit "-" ++ itoa (layoutSubAuthority b 1)
            ++ lit "-" ++ itoa (layoutSubAuthority b 2)
            ++ lit "-" ++ itoa (layoutSubAuthority b 3)
            ++ lit "-" ++ itoa (layoutSubAuthority b 4))
      ∧ (Decode b).bind SID.RID = some (layoutSubAuthority b 4 : Int) := by
  rw [Decode_eq_layoutSID b (by omega)]
  constructor
  · simp [layoutSID, hcnt, SID.String, List.range, List.range.loop]
  · simp [RID_eq_getLast?, layoutSID, hcnt, List.range, List.range.loop]

/-- C1, at the example of the specification: revision 1, count 5, authority 5 and
sub-authorities 21, 2, 3, 4, 1105 give `S-1-5-21-2-3-4-1105` and RID 1105. -/
theorem decode_string_rid_five_witness :
    exampleBlob.length = 28 ∧ byteAt exampleBlob 1 = 5
      ∧ (Decode exampleBlob).map SID.String = some (lit "S-1-5-21-2-3-4-1105")
      ∧ (Decode exampleBlob).bind SID.RID = some 1105 :=
  ⟨by decide, by decide,
    (decode_string_rid_five exampleBlob (by decide) (by decide)).1.trans (by decide),
    (decode_string_rid_five exampleBlob (by decide) (by decide)).2.trans (by decide)⟩

/-- C2: on a blob at least `8 + 4*b[1]` bytes long, `Decode` returns the identifier
of the reference layout: revision `b[0]`, count `b[1]`, authority the big-endian
value of bytes 2..7 (below `2^48`), and exactly `b[1]` sub-authorities, the `i`-th
being the little-endian value of bytes `8+4i .. 8+4i+3` (below `2^32`). -/
theorem decode_refines_layout (b : List Byte) (h : 8 + 4 * byteAt b 1 ≤ b.length) :
    Decode b = some (layoutSID b)
      ∧ layoutAuthority b < 2 ^ 48
      ∧ (layoutSID b).SubAuthorities.length = byteAt b 1
      ∧ ∀ i, layoutSubAuthority b i < 2 ^ 32 :=
  ⟨Decode_eq_layoutSID b h, layoutAuthority_lt b, by simp [layoutSID],
    layoutSubAuthority_lt b⟩

/-- C2, at the example blob. -/
theorem decode_refines_layout_witness :
    8 + 4 * byteAt exampleBlob 1 ≤ exampleBlob.length
      ∧ Decode exampleBlob = some (layoutSID exampleBlob)
      ∧ layoutAuthority exampleBlob < 2 ^ 48
      ∧ (layoutSID exampleBlob).SubAuthorities.length = byteAt exampleBlob 1
      ∧ ∀ i, layoutSubAuthority exampleBlob i < 2 ^ 32 :=
  ⟨by decide, decode_refines_layout exampleBlob (by decide)⟩

/-- C3: `RID()` returns the last element of `SubAuthorities` when there is one,
and fails (panics) exactly when `SubAuthorities` is empty. -/
theorem rid_last_or_fails (sid : SID) :
    sid.RID = sid.SubAuthorities.getLast? ∧ (sid.RID = none ↔ sid.SubAuthorities = []) := by
  refine ⟨RID_eq_getLast? sid, ?_⟩
  rw [RID_eq_getLast? sid]
  exact List.getLast?_eq_none_iff

/-- C4 fails as stated: the blob `emptyCountBlob` has a length consistent with its
count byte (zero), it decodes to an identifier with no sub-authority, and `RID()`
panics on it. -/
theorem decode_empty_count_counterexample :
    8 + 4 * byteAt emptyCountBlob 1 ≤ emptyCountBlob.length
      ∧ (Decode emptyCountBlob).map SID.SubAuthorities = some []
      ∧ (Decode emptyCountBlob).bind SID.RID = none := by
  decide

/-- C4, amended: on a blob whose count byte is at least 1 and whose length is at
least `8 + 4*b[1]`, `Decode` returns an identifier whose `SubAuthorities` is not
empty, and `RID()` is defined on it. -/
theorem decode_subAuthorities_nonempty (b : List Byte) (hcnt : 1 ≤ byteAt b 1)
    (h : 8 + 4 * byteAt b 1 ≤ b.length) :
    ∃ sid, Decode b = some sid ∧ sid.SubAuthorities ≠ [] ∧ ∃ r, sid.RID = some r := by
  refine ⟨layoutSID b, Decode_eq_layoutSID b h, ?_, ?_⟩
  · intro hnil
    have hl := congrArg List.length hnil
    simp [layoutSID] at hl
    omega
  · refine ⟨(layoutSubAuthority b (byteAt b 1 - 1) : Int), ?_⟩
    obtain ⟨n, hn⟩ : ∃ n, byteAt b 1 = n + 1 := ⟨byteAt b 1 - 1, by omega⟩
    rw [RID_eq_getLast?]
    simp [layoutSID, hn, List.range_succ]

/-- C4, amended, at the example blob. -/
theorem decode_subAuthorities_nonempty_witness :
    1 ≤ byteAt exampleBlob 1 ∧ 8 + 4 * byteAt exampleBlob 1 ≤ exampleBlob.length
      ∧ ∃ sid, Decode exampleBlob = some sid ∧ sid.SubAuthorities ≠ [] ∧ ∃ r, sid.RID = some r :=
  ⟨by decide, by decide, decode_subAuthorities_nonempty exampleBlob (by decide) (by decide)⟩

end helper

namespace base64

/-! ### Encoding then decoding is the identity -/

theorem decodeMap_encodeStd : ∀ i : Fin 64, decodeMap (encodeStd.getD i.val 0) = some i.val := by
  decide

theorem decodeMap_encodeChar (v : Nat) : decodeMap (encodeChar v) = some (v % 64) :=
  decodeMap_encodeStd ⟨v % 64, Nat.mod_lt _ (by decide)⟩

theorem decodeMap_padChar : decodeMap padChar = none := by decide

theorem decodeLoop_encodeChar (v : Nat) (rest : List Byte) (dbuf : List Nat) :
    decodeLoop (encodeChar v :: rest) dbuf
      = if dbuf.length = 3 then
          (quantumBytes (dbuf ++ [v % 64]) ++ (decodeLoop rest []).1, (decodeLoop rest []).2)
        else decodeLoop rest (dbuf ++ [v % 64]) := by
  rw [decodeLoop, decodeMap_encodeChar]

theorem decodeLoop_padChar (rest : List Byte) (dbuf : List Nat) :
    decodeLoop (padChar :: rest) dbuf = decodePadding padChar rest dbuf := by
  rw [decodeLoop, decodeMap_padChar]
  rfl

theorem toByte_full (a b c : Byte) :
    toByte (sextets24 (group24 a.val b.val c.val / 262144 % 64)
        (group24 a.val b.val c.val / 4096 % 64) (group24 a.val b.val c.val / 64 % 64)
        (group24 a.val b.val c.val % 64) / 65536) = a
      ∧ toByte (sextets24 (group24 a.val b.val c.val / 262144 % 64)
        (group24 a.val b.val c.val / 4096 % 64) (group24 a.val b.val c.val / 64 % 64)
        (group24 a.val b.val c.val % 64) / 256) = b
      ∧ toByte (sextets24 (group24 a.val b.val c.val / 262144 % 64)
        (group24 a.val b.val c.val / 4096 % 64) (group24 a.val b.val c.val / 64 % 64)
        (group24 a.val b.val c.val % 64)) = c := by
  have ha := a.isLt
  have hb := b.isLt
  have hc := c.isLt
  refine ⟨Fin.ext ?_, Fin.ext ?_, Fin.ext ?_⟩ <;>
    simp only [toByte, sextets24, group24] <;> omega

theorem toByte_two (a b : Byte) :
    toByte (sextets24 (group24 a.val b.val 0 / 262144 % 64) (group24 a.val b.val 0 / 4096 % 64)
        (group24 a.val b.val 0 / 64 % 64) 0 / 65536) = a
      ∧ toByte (sextets24 (group24 a.val b.val 0 / 262144 % 64)
        (group24 a.val b.val 0 / 4096 % 64) (group24 a.val b.val 0 / 64 % 64) 0 / 256) = b := by
  have ha := a.isLt
  have hb := b.isLt
  refine ⟨Fin.ext ?_, Fin.ext ?_⟩ <;> simp only [toByte, sextets24, group24] <;> omega

theorem toByte_one (a : Byte) :
    toByte (sextets24 (group24 a.val 0 0 / 262144 % 64) (group24 a.val 0 0 / 4096 % 64) 0 0
      / 65536) = a := by
  have ha := a.isLt
  refine Fin.ext ?_
  simp only [toByte, sextets24, group24]
  omega

theorem decodeLoop_encode : ∀ s : List Byte, decodeLoop (EncodeToString s) [] = (s, false)
  | a :: b :: c :: rest => by
    have ih := decodeLoop_encode rest
    obtain ⟨h1, h2, h3⟩ := toByte_full a b c
    simp [EncodeToString, decodeLoop_encodeChar, ih, quantumBytes, h1, h2, h3]
  | [a, b] => by
    obtain ⟨h1, h2⟩ := toByte_two a b
    simp [EncodeToString, decodeLoop_encodeChar, decodeLoop_padChar, decodePadding,
      skipNewlines, h1, h2]
  | [a] => by
    have h1 := toByte_one a
    have hp : ¬ (padChar = 10 ∨ padChar = 13) := by decide
    simp [EncodeToString, decodeLoop_encodeChar, decodeLoop_padChar, decodePadding,
      skipNewlines, h1, hp]
  | [] => rfl

/-- Decoding what `EncodeToString` produced gives the bytes back, without error. -/
theorem DecodeString_EncodeToString (s : List Byte) :
    DecodeString (EncodeToString s) = (s, false) :=
  decodeLoop_encode s

end base64

namespace client

/-! ### Running a computation -/

@[simp] theorem pure_run {α : Type} (a : α) (env : Env) (tr : List Call) :
    (pure a : Op α) env tr = (.ret a, tr) := rfl

@[simp] theorem bind_run {α β : Type} (m : Op α) (f : α → Op β) (env : Env) (tr : List Call) :
    (m >>= f) env tr = Op.bind m f env tr := rfl

@[simp] theorem panic_run {α : Type} (env : Env) (tr : List Call) :
    (panic : Op α) env tr = (.panic, tr) := rfl

@[simp] theorem logFatal_run {α : Type} (env : Env) (tr : List Call) :
    (logFatal : Op α) env tr = (.fatal, tr) := rfl

@[simp] theorem call_run (c : Call) (env : Env) (tr : List Call) :
    call c env tr = (.ret (env (tr ++ [c])), tr ++ [c]) := rfl

theorem bind_ret {α β : Type} (m : Op α) (f : α → Op β) (env : Env) (tr tr1 : List Call) (a : α)
    (h : m env tr = (.ret a, tr1)) : Op.bind m f env tr = f a env tr1 := by
  simp [Op.bind, h]

theorem bind_panic {α β : Type} (m : Op α) (f : α → Op β) (env : Env) (tr tr1 : List Call)
    (h : m env tr = (.panic, tr1)) : Op.bind m f env tr = (.panic, tr1) := by
  simp [Op.bind, h]

/-! ### The lookups -/

theorem getUser_trace (name baseOU : GoString) (env : Env) (tr : List Call) :
    (getUser name baseOU env tr).2 = tr ++ [userSearch name baseOU] := by
  simp only [getUser, searchObject, bind_run, Op.bind, call_run, userSearch]
  rcases env (tr ++ [_]) with ⟨objs, err⟩
  cases err with
  | some e => rfl
  | none =>
    match objs with
    | [] => rfl
    | _ :: _ :: _ => rfl
    | [ret0] =>
      simp only [index0]
      cases mapIndex ret0.attributes (lit "cn") <;>
        cases mapIndex ret0.attributes (lit "sn") <;>
        cases mapIndex ret0.attributes (lit "objectSid") <;> rfl

theorem getUser_of_empty (name baseOU : GoString) (env : Env) (tr : List Call)
    (h : env (tr ++ [userSearch name baseOU]) = ⟨[], none⟩) :
    getUser name baseOU env tr
      = (.ret (none, none), tr ++ [userSearch name baseOU]) := by
  simp only [userSearch] at h
  simp only [getUser, searchObject, bind_run, Op.bind, call_run, userSearch, h, pure_run]

theorem getUser_of_many (name baseOU : GoString) (env : Env) (tr : List Call)
    (objs : List ADObject) (hlen : 2 ≤ objs.length)
    (h : env (tr ++ [userSearch name baseOU]) = ⟨objs, none⟩) :
    ∃ e, getUser name baseOU env tr
      = (.ret (none, some e), tr ++ [userSearch name baseOU]) := by
  match objs, hlen with
  | o1 :: o2 :: rest, _ =>
    simp only [userSearch] at h
    simp only [getUser, searchObject, bind_run, Op.bind, call_run, userSearch, h, pure_run]
    exact ⟨_, rfl⟩

theorem getUser_of_one (name baseOU : GoString) (env : Env) (tr : List Call)
    (ret0 : ADObject) (cn sn sid : GoString) (cns sns sids : List GoString)
    (h : env (tr ++ [userSearch name baseOU]) = ⟨[ret0], none⟩)
    (hcn : mapIndex ret0.attributes (lit "cn") = cn :: cns)
    (hsn : mapIndex ret0.attributes (lit "sn") = sn :: sns)
    (hsid : mapIndex ret0.attributes (lit "objectSid") = sid :: sids) :
    getUser name baseOU env tr
      = (.ret (some { name := cn, dn := ret0.dn, sn := sn, sid := sid }, none),
          tr ++ [userSearch name baseOU]) := by
  simp only [userSearch] at h
  simp only [getUser, searchObject, bind_run, Op.bind, call_run, userSearch, h, pure_run, hcn, hsn, hsid, index0]

theorem getGroup_trace (name baseOU : GoString) (env : Env) (tr : List Call) :
    (getGroup name baseOU env tr).2 = tr ++ [groupSearch name baseOU] := by
  simp only [getGroup, searchObject, bind_run, Op.bind, call_run, groupSearch]
  rcases env (tr ++ [_]) with ⟨objs, err⟩
  cases err with
  | some e => rfl
  | none =>
    match objs with
    | [] => rfl
    | _ :: _ :: _ => rfl
    | [ret0] =>
      simp only [index0]
      cases mapIndex ret0.attributes (lit "cn") <;>
        cases mapIndex ret0.attributes (lit "sAMAccountName") <;> rfl

theorem getGroup_of_empty (name baseOU : GoString) (env : Env) (tr : List Call)
    (h : env (tr ++ [groupSearch name baseOU]) = ⟨[], none⟩) :
    getGroup name baseOU env tr
      = (.ret (none, none), tr ++ [groupSearch name baseOU]) := by
  simp only [groupSearch] at h
  simp only [getGroup, searchObject, bind_run, Op.bind, call_run, groupSearch, h, pure_run]

theorem getGroup_of_many (name baseOU : GoString) (env : Env) (tr : List Call)
    (objs : List ADObject) (hlen : 2 ≤ objs.length)
    (h : env (tr ++ [groupSearch name baseOU]) = ⟨objs, none⟩) :
    ∃ e, getGroup name baseOU env tr
      = (.ret (none, some e), tr ++ [groupSearch name baseOU]) := by
  match objs, hlen with
  | o1 :: o2 :: rest, _ =>
    simp only [groupSearch] at h
    simp only [getGroup, searchObject, bind_run, Op.bind, call_run, groupSearch, h, pure_run]
    exact ⟨_, rfl⟩

theorem getGroup_of_one (name baseOU : GoString) (env : Env) (tr : List Call)
    (ret0 : ADObject) (cn sam : GoString) (cns sams : List GoString)
    (h : env (tr ++ [groupSearch name baseOU]) = ⟨[ret0], none⟩)
    (hcn : mapIndex ret0.attributes (lit "cn") = cn :: cns)
    (hsam : mapIndex ret0.attributes (lit "sAMAccountName") = sam :: sams) :
    getGroup name baseOU env tr
      = (.ret (some { name := cn, dn := ret0.dn, description := sam }, none),
          tr ++ [groupSearch name baseOU]) := by
  simp only [groupSearch] at h
  simp only [getGroup, searchObject, bind_run, Op.bind, call_run, groupSearch, h, pure_run, hcn, hsam, index0]

theorem getOU_trace (name baseOU : GoString) (env : Env) (tr : List Call) :
    (getOU name baseOU env tr).2 = tr ++ [ouSearch name baseOU] := by
  simp only [getOU, searchObject, bind_run, Op.bind, call_run, ouSearch]
  rcases env (tr ++ [_]) with ⟨objs, err⟩
  cases err with
  | some e => rfl
  | none =>
    match objs with
    | [] => rfl
    | _ :: _ :: _ => rfl
    | [ret0] =>
      simp only [index0]
      cases mapIndex ret0.attributes (lit "ou") <;>
        cases mapIndex ret0.attributes (lit "description") <;> rfl

theorem getOU_of_empty (name baseOU : GoString) (env : Env) (tr : List Call)
    (h : env (tr ++ [ouSearch name baseOU]) = ⟨[], none⟩) :
    getOU name baseOU env tr
      = (.ret (none, none), tr ++ [ouSearch name baseOU]) := by
  simp only [ouSearch] at h
  simp only [getOU, searchObject, bind_run, Op.bind, call_run, ouSearch, h, pure_run]

theorem getOU_of_many (name baseOU : GoString) (env : Env) (tr : List Call)
    (objs : List ADObject) (hlen : 2 ≤ objs.length)
    (h : env (tr ++ [ouSearch name baseOU]) = ⟨objs, none⟩) :
    ∃ e, getOU name baseOU env tr
      = (.ret (none, some e), tr ++ [ouSearch name baseOU]) := by
  match objs, hlen with
  | o1 :: o2 :: rest, _ =>
    simp only [ouSearch] at h
    simp only [getOU, searchObject, bind_run, Op.bind, call_run, ouSearch, h, pure_run]
    exact ⟨_, rfl⟩

theorem getOU_of_one (name baseOU : GoString) (env : Env) (tr : List Call)
    (ret0 : ADObject) (ou desc : GoString) (ous descs : List GoString)
    (h : env (tr ++ [ouSearch name baseOU]) = ⟨[ret0], none⟩)
    (hou : mapIndex ret0.attributes (lit "ou") = ou :: ous)
    (hdesc : mapIndex ret0.attributes (lit "description") = desc :: descs) :
    getOU name baseOU env tr
      = (.ret (some { name := ou, dn := ret0.dn, description := desc }, none),
          tr ++ [ouSearch name baseOU]) := by
  simp only [ouSearch] at h
  simp only [getOU, searchObject, bind_run, Op.bind, call_run, ouSearch, h, pure_run, hou, hdesc, index0]

theorem getComputer_trace (lib : Lib) (c : Client) (name : GoString) (env : Env) (tr : List Call) :
    (getComputer lib c name env tr).2 = tr ++ [computerSearch lib c name] := by
  simp only [getComputer, searchObject, bind_run, Op.bind, call_run, computerSearch]
  rcases env (tr ++ [_]) with ⟨objs, err⟩
  cases err with
  | some e => rfl
  | none =>
    match objs with
    | [] => rfl
    | _ :: _ :: _ => rfl
    | [ret0] =>
      simp only [index0]
      cases mapIndex ret0.attributes (lit "cn") <;>
        cases mapIndex ret0.attributes (lit "description") <;> rfl

theorem getComputer_of_empty (lib : Lib) (c : Client) (name : GoString) (env : Env) (tr : List Call)
    (h : env (tr ++ [computerSearch lib c name]) = ⟨[], none⟩) :
    getComputer lib c name env tr
      = (.ret (none, none), tr ++ [computerSearch lib c name]) := by
  simp only [computerSearch] at h
  simp only [getComputer, searchObject, bind_run, Op.bind, call_run, computerSearch, h, pure_run]

theorem getComputer_of_many (lib : Lib) (c : Client) (name : GoString) (env : Env) (tr : List Call)
    (objs : List ADObject) (hlen : 2 ≤ objs.length)
    (h : env (tr ++ [computerSearch lib c name]) = ⟨objs, none⟩) :
    ∃ e, getComputer lib c name env tr
      = (.ret (none, some e), tr ++ [computerSearch lib c name]) := by
  match objs, hlen with
  | o1 :: o2 :: rest, _ =>
    simp only [computerSearch] at h
    simp only [getComputer, searchObject, bind_run, Op.bind, call_run, computerSearch, h, pure_run]
    exact ⟨_, rfl⟩

theorem getComputer_of_one (lib : Lib) (c : Client) (name : GoString) (env : Env) (tr : List Call)
    (ret0 : ADObject) (cn desc : GoString) (cns descs : List GoString)
    (h : env (tr ++ [computerSearch lib c name]) = ⟨[ret0], none⟩)
    (hcn : mapIndex ret0.attributes (lit "cn") = cn :: cns)
    (hdesc : mapIndex ret0.attributes (lit "description") = desc :: descs) :
    getComputer lib c name env tr
      = (.ret (some { name := cn, dn := ret0.dn, description := desc }, none),
          tr ++ [computerSearch lib c name]) := by
  simp only [computerSearch] at h
  simp only [getComputer, searchObject, bind_run, Op.bind, call_run, computerSearch, h, pure_run, hcn, hdesc, index0]

/-! ### Creating over an existing entry -/

theorem createUser_of_found (lib : Lib) (c : Client) (u : ADUserRequest) (env : Env)
    (tr tr1 : List Call) (tmp : ADUser)
    (h : getUser u.name u.baseOU env tr = (.ret (some tmp, none), tr1)) :
    createUser lib c u env tr
      = (.ret (some (lit "createUser - User object " ++ u.name
          ++ lit " already exists under this base ou " ++ u.baseOU)), tr1) := by
  simp only [createUser, bind_run, Op.bind, h, pure_run]

theorem createGroup_of_found (gc : ADGroupRequest) (env : Env) (tr tr1 : List Call)
    (tmp : ADGroup)
    (h : getGroup gc.group_name gc.group_base_ou env tr = (.ret (some tmp, none), tr1)) :
    createGroup gc env tr
      = (.ret (some (lit "createGroup - User object " ++ gc.group_name
          ++ lit " already exists under this base ou " ++ gc.group_base_ou)), tr1) := by
  simp only [createGroup, bind_run, Op.bind, h, pure_run]

theorem createOU_of_conflict (name baseOU description : GoString) (env : Env)
    (tr tr1 : List Call) (tmp : ADOU)
    (h : getOU name baseOU env tr = (.ret (some tmp, none), tr1))
    (hdn : tmp.dn ≠ lit "ou=" ++ name ++ lit "," ++ baseOU) :
    createOU name baseOU description env tr
      = (.ret (some (lit "createOU - ou object " ++ name
          ++ lit " already exists under this base ou " ++ baseOU)), tr1) := by
  simp only [createOU, bind_run, Op.bind, h, hdn, and_false, if_false, pure_run]

theorem createComputer_of_conflict (lib : Lib) (c : Client) (cn ou description : GoString)
    (env : Env) (tr tr1 : List Call) (tmp : ADComputer)
    (h : getComputer lib c cn env tr = (.ret (some tmp, none), tr1))
    (hdn : tmp.dn ≠ lit "cn=" ++ cn ++ lit "," ++ ou) :
    createComputer lib c cn ou description env tr
      = (.ret (some (lit "createComputer - computer object " ++ cn
          ++ lit " already exists in a different ou")), tr1) := by
  simp only [createComputer, bind_run, Op.bind, h, hdn, and_false, if_false, pure_run]

theorem createOU_of_same (name baseOU description : GoString) (env : Env)
    (tr tr1 : List Call) (tmp : ADOU)
    (h : getOU name baseOU env tr = (.ret (some tmp, none), tr1))
    (hname : tmp.name = name) (hdn : tmp.dn = lit "ou=" ++ name ++ lit "," ++ baseOU) :
    createOU name baseOU description env tr
      = updateOUDescription name baseOU description env tr1 := by
  simp only [createOU, bind_run, Op.bind, h, hname, hdn, and_self, if_true]

theorem createComputer_of_same (lib : Lib) (c : Client) (cn ou description : GoString)
    (env : Env) (tr tr1 : List Call) (tmp : ADComputer)
    (h : getComputer lib c cn env tr = (.ret (some tmp, none), tr1))
    (hname : tmp.name = cn) (hdn : tmp.dn = lit "cn=" ++ cn ++ lit "," ++ ou) :
    createComputer lib c cn ou description env tr
      = updateComputerDescription cn ou description env tr1 := by
  simp only [createComputer, bind_run, Op.bind, h, hname, hdn, and_self, if_true]

theorem updateComputerDescription_run (cn ou description : GoString) (env : Env)
    (tr : List Call) :
    updateComputerDescription cn ou description env tr
      = (.ret (env (tr ++ [.updateObject (lit "cn=" ++ cn ++ lit "," ++ ou) [] []
            [(lit "description", [description])] []])).err,
          tr ++ [.updateObject (lit "cn=" ++ cn ++ lit "," ++ ou) [] []
            [(lit "description", [description])] []]) := rfl

theorem moveOU_at_target (cn baseOU newOU : GoString) (env : Env) (tr tr1 : List Call)
    (tmp : ADOU) (h : getOU cn baseOU env tr = (.ret (some tmp, none), tr1))
    (hdn : tmp.dn = lit "ou=" ++ cn ++ lit "," ++ newOU) :
    moveOU cn baseOU newOU env tr = (.ret none, tr1) := by
  simp only [moveOU, bind_run, Op.bind, h, hdn, if_true, pure_run]

theorem updateComputerOU_at_target (lib : Lib) (c : Client) (cn ou newOU : GoString)
    (env : Env) (tr tr1 : List Call) (tmp : ADComputer)
    (h : getComputer lib c cn env tr = (.ret (some tmp, none), tr1))
    (hdn : lib.EqualFold tmp.dn (lit "cn=" ++ cn ++ lit "," ++ newOU) = true) :
    updateComputerOU lib c cn ou newOU env tr = (.ret none, tr1) := by
  simp only [updateComputerOU, bind_run, Op.bind, h, hdn, if_true, pure_run]

theorem mutations_append_search (tr : List Call) (filter baseDN : GoString)
    (attributes : List GoString) :
    mutations (tr ++ [.searchObject filter baseDN attributes]) = mutations tr := by
  simp [mutations, Call.isMutation]

/-! ### The claims on the lookups -/

/-- C6: for each of `getUser`, `getGroup`, `getOU` and `getComputer`, when the
search succeeds with the entries `objs`: with no entry the lookup returns "not
found" (nil record, nil error), and with two or more entries it returns an error
and a nil record. -/
theorem lookup_zero_or_many (lib : Lib) (c : Client) (env : Env) (tr : List Call)
    (name baseOU : GoString) (objs : List ADObject) :
    (env (tr ++ [userSearch name baseOU]) = ⟨objs, none⟩ →
        (objs = [] → (getUser name baseOU env tr).1 = .ret (none, none))
        ∧ (2 ≤ objs.length → ∃ e, (getUser name baseOU env tr).1 = .ret (none, some e)))
    ∧ (env (tr ++ [groupSearch name baseOU]) = ⟨objs, none⟩ →
        (objs = [] → (getGroup name baseOU env tr).1 = .ret (none, none))
        ∧ (2 ≤ objs.length → ∃ e, (getGroup name baseOU env tr).1 = .ret (none, some e)))
    ∧ (env (tr ++ [ouSearch name baseOU]) = ⟨objs, none⟩ →
        (objs = [] → (getOU name baseOU env tr).1 = .ret (none, none))
        ∧ (2 ≤ objs.length → ∃ e, (getOU name baseOU env tr).1 = .ret (none, some e)))
    ∧ (env (tr ++ [computerSearch lib c name]) = ⟨objs, none⟩ →
        (objs = [] → (getComputer lib c name env tr).1 = .ret (none, none))
        ∧ (2 ≤ objs.length → ∃ e, (getComputer lib c name env tr).1 = .ret (none, some e))) := by
  refine ⟨fun h => ⟨fun h0 => ?_, fun h2 => ?_⟩, fun h => ⟨fun h0 => ?_, fun h2 => ?_⟩,
    fun h => ⟨fun h0 => ?_, fun h2 => ?_⟩, fun h => ⟨fun h0 => ?_, fun h2 => ?_⟩⟩
  · subst h0; rw [getUser_of_empty name baseOU env tr h]
  · obtain ⟨e, he⟩ := getUser_of_many name baseOU env tr objs h2 h
    exact ⟨e, by rw [he]⟩
  · subst h0; rw [getGroup_of_empty name baseOU env tr h]
  · obtain ⟨e, he⟩ := getGroup_of_many name baseOU env tr objs h2 h
    exact ⟨e, by rw [he]⟩
  · subst h0; rw [getOU_of_empty name baseOU env tr h]
  · obtain ⟨e, he⟩ := getOU_of_many name baseOU env tr objs h2 h
    exact ⟨e, by rw [he]⟩
  · subst h0; rw [getComputer_of_empty lib c name env tr h]
  · obtain ⟨e, he⟩ := getComputer_of_many lib c name env tr objs h2 h
    exact ⟨e, by rw [he]⟩

/-- C6, on a directory that finds nothing and on one that finds the entry of `jdoe`
twice. -/
theorem lookup_zero_or_many_witness :
    ((getUser (lit "jdoe") peopleOU (constEnv []) []).1 = .ret (none, none)
      ∧ (getGroup (lit "jdoe") peopleOU (constEnv []) []).1 = .ret (none, none)
      ∧ (getOU (lit "jdoe") peopleOU (constEnv []) []).1 = .ret (none, none)
      ∧ (getComputer exampleLib exampleClient (lit "jdoe") (constEnv []) []).1
          = .ret (none, none))
    ∧ ((∃ e, (getUser (lit "jdoe") peopleOU
          (constEnv [jdoeEntry peopleOU, jdoeEntry peopleOU]) []).1 = .ret (none, some e))
      ∧ (∃ e, (getGroup (lit "jdoe") peopleOU
          (constEnv [jdoeEntry peopleOU, jdoeEntry peopleOU]) []).1 = .ret (none, some e))
      ∧ (∃ e, (getOU (lit "jdoe") peopleOU
          (constEnv [jdoeEntry peopleOU, jdoeEntry peopleOU]) []).1 = .ret (none, some e))
      ∧ (∃ e, (getComputer exampleLib exampleClient (lit "jdoe")
          (constEnv [jdoeEntry peopleOU, jdoeEntry peopleOU]) []).1 = .ret (none, some e))) :=
  have zero := lookup_zero_or_many exampleLib exampleClient (constEnv []) [] (lit "jdoe")
    peopleOU []
  have many := lookup_zero_or_many exampleLib exampleClient
    (constEnv [jdoeEntry peopleOU, jdoeEntry peopleOU]) [] (lit "jdoe") peopleOU
    [jdoeEntry peopleOU, jdoeEntry peopleOU]
  ⟨⟨(zero.1 rfl).1 rfl, (zero.2.1 rfl).1 rfl, (zero.2.2.1 rfl).1 rfl, (zero.2.2.2 rfl).1 rfl⟩,
    ⟨(many.1 rfl).2 (by decide), (many.2.1 rfl).2 (by decide), (many.2.2.1 rfl).2 (by decide),
      (many.2.2.2 rfl).2 (by decide)⟩⟩

/-- C7 fails on the code: when the search returns exactly the entry `bareEntry`,
which has a DN and the naming attributes `cn` and `ou` but no `description`, `sn`,
`sAMAccountName` or `objectSid`, every one of the four lookups panics on the index
`[0]` of the absent attribute instead of returning a record. -/
theorem lookup_panics_on_bare_entry :
    (getUser (lit "eng") peopleOU (constEnv [bareEntry]) []).1 = .panic
      ∧ (getGroup (lit "eng") peopleOU (constEnv [bareEntry]) []).1 = .panic
      ∧ (getOU (lit "eng") peopleOU (constEnv [bareEntry]) []).1 = .panic
      ∧ (getComputer exampleLib exampleClient (lit "eng") (constEnv [bareEntry]) []).1
          = .panic := by
  decide

/-! ### The claims on create and move -/

/-- C8 fails on the code for users and groups: when the directory already holds
`jdoe` under `peopleOU` with the requested name and exactly the target DN,
`createUser` and `createGroup` issue the search and nothing else, and return the
error "already exists" instead of success. -/
theorem create_existing_user_group_fails :
    createUser exampleLib exampleClient jdoeRequest (constEnv [jdoeEntry peopleOU]) []
        = (.ret (some (lit "createUser - User object jdoe already exists under this base ou "
            ++ peopleOU)), [userSearch (lit "jdoe") peopleOU])
      ∧ createGroup ⟨lit "jdoe", peopleOU, lit "a group"⟩ (constEnv [jdoeEntry peopleOU]) []
        = (.ret (some (lit "createGroup - User object jdoe already exists under this base ou "
            ++ peopleOU)), [groupSearch (lit "jdoe") peopleOU])
      ∧ (jdoeEntry peopleOU).dn = lit "cn=" ++ jdoeRequest.name ++ lit "," ++ jdoeRequest.baseOU
      ∧ mapIndex (jdoeEntry peopleOU).attributes (lit "cn") = [jdoeRequest.name] := by
  decide

/-- C9: for every entity kind, when the initial lookup finds an entry whose DN
differs from the target DN of the request, the create operation returns an error
and the only call it issues is the search of the lookup: no create, modify,
modify-DN or delete. -/
theorem create_conflict_no_mutation (lib : Lib) (c : Client) (env : Env) (tr : List Call)
    (u : ADUserRequest) (gc : ADGroupRequest) (name baseOU description : GoString) :
    (∀ tmp tr1, getUser u.name u.baseOU env tr = (.ret (some tmp, none), tr1) →
        tmp.dn ≠ lit "cn=" ++ u.name ++ lit "," ++ u.baseOU →
        (∃ e, (createUser lib c u env tr).1 = .ret (some e))
          ∧ (createUser lib c u env tr).2 = tr ++ [userSearch u.name u.baseOU]
          ∧ mutations (createUser lib c u env tr).2 = mutations tr)
    ∧ (∀ tmp tr1, getGroup gc.group_name gc.group_base_ou env tr = (.ret (some tmp, none), tr1) →
        tmp.dn ≠ lit "cn=" ++ gc.group_name ++ lit "," ++ gc.group_base_ou →
        (∃ e, (createGroup gc env tr).1 = .ret (some e))
          ∧ (createGroup gc env tr).2 = tr ++ [groupSearch gc.group_name gc.group_base_ou]
          ∧ mutations (createGroup gc env tr).2 = mutations tr)
    ∧ (∀ tmp tr1, getOU name baseOU env tr = (.ret (some tmp, none), tr1) →
        tmp.dn ≠ lit "ou=" ++ name ++ lit "," ++ baseOU →
        (∃ e, (createOU name baseOU description env tr).1 = .ret (some e))
          ∧ (createOU name baseOU description env tr).2 = tr ++ [ouSearch name baseOU]
          ∧ mutations (createOU name baseOU description env tr).2 = mutations tr)
    ∧ (∀ tmp tr1, getComputer lib c name env tr = (.ret (some tmp, none), tr1) →
        tmp.dn ≠ lit "cn=" ++ name ++ lit "," ++ baseOU →
        (∃ e, (createComputer lib c name baseOU description env tr).1 = .ret (some e))
          ∧ (createComputer lib c name baseOU description env tr).2
              = tr ++ [computerSearch lib c name]
          ∧ mutations (createComputer lib c name baseOU description env tr).2
              = mutations tr) := by
  refine ⟨fun tmp tr1 h _ => ?_, fun tmp tr1 h _ => ?_, fun tmp tr1 h hdn => ?_,
    fun tmp tr1 h hdn => ?_⟩
  · have htr : tr1 = tr ++ [userSearch u.name u.baseOU] := by
      rw [← getUser_trace u.name u.baseOU env tr, h]
    rw [createUser_of_found lib c u env tr tr1 tmp h, htr]
    exact ⟨⟨_, rfl⟩, rfl, mutations_append_search tr _ _ _⟩
  · have htr : tr1 = tr ++ [groupSearch gc.group_name gc.group_base_ou] := by
      rw [← getGroup_trace gc.group_name gc.group_base_ou env tr, h]
    rw [createGroup_of_found gc env tr tr1 tmp h, htr]
    exact ⟨⟨_, rfl⟩, rfl, mutations_append_search tr _ _ _⟩
  · have htr : tr1 = tr ++ [ouSearch name baseOU] := by
      rw [← getOU_trace name baseOU env tr, h]
    rw [createOU_of_conflict name baseOU description env tr tr1 tmp h hdn, htr]
    exact ⟨⟨_, rfl⟩, rfl, mutations_append_search tr _ _ _⟩
  · have htr : tr1 = tr ++ [computerSearch lib c name] := by
      rw [← getComputer_trace lib c name env tr, h]
    rw [createComputer_of_conflict lib c name baseOU description env tr tr1 tmp h hdn, htr]
    exact ⟨⟨_, rfl⟩, rfl, mutations_append_search tr _ _ _⟩

/-- C10 fails on the code for users: when `jdoe` is found and its DN already is
`cn=jdoe,<newOU>`, `moveUser` compares the DN with `ou=jdoe,<newOU>`, finds them
different and issues a modify-DN request. -/
theorem moveUser_at_target_issues_modifyDN :
    (jdoeEntry staffOU).dn = lit "cn=" ++ lit "jdoe" ++ lit "," ++ staffOU
      ∧ moveUser (lit "jdoe") peopleOU staffOU (constEnv [jdoeEntry staffOU]) []
        = (.ret none, [userSearch (lit "jdoe") peopleOU,
            .ModifyDN (lit "ou=jdoe," ++ peopleOU) (lit "ou=jdoe") true staffOU]) := by
  decide

/-- C9, on directories that hold `jdoe` (or the unit `eng`) under `staffOU` while the
request names `peopleOU`: each of the four create operations returns an error
after its search alone. -/
theorem create_conflict_no_mutation_witness :
    ((∃ e, (createUser exampleLib exampleClient jdoeRequest
          (constEnv [jdoeEntry staffOU]) []).1 = .ret (some e))
      ∧ (createUser exampleLib exampleClient jdoeRequest (constEnv [jdoeEntry staffOU]) []).2
          = [] ++ [userSearch jdoeRequest.name jdoeRequest.baseOU]
      ∧ mutations (createUser exampleLib exampleClient jdoeRequest
          (constEnv [jdoeEntry staffOU]) []).2 = mutations [])
    ∧ ((∃ e, (createGroup ⟨lit "jdoe", peopleOU, lit "a group"⟩
          (constEnv [jdoeEntry staffOU]) []).1 = .ret (some e))
      ∧ (createGroup ⟨lit "jdoe", peopleOU, lit "a group"⟩ (constEnv [jdoeEntry staffOU]) []).2
          = [] ++ [groupSearch (lit "jdoe") peopleOU]
      ∧ mutations (createGroup ⟨lit "jdoe", peopleOU, lit "a group"⟩
          (constEnv [jdoeEntry staffOU]) []).2 = mutations [])
    ∧ ((∃ e, (createOU (lit "eng") peopleOU (lit "new") (constEnv [engEntry staffOU]) []).1
          = .ret (some e))
      ∧ (createOU (lit "eng") peopleOU (lit "new") (constEnv [engEntry staffOU]) []).2
          = [] ++ [ouSearch (lit "eng") peopleOU]
      ∧ mutations (createOU (lit "eng") peopleOU (lit "new") (constEnv [engEntry staffOU]) []).2
          = mutations [])
    ∧ ((∃ e, (createComputer exampleLib exampleClient (lit "jdoe") peopleOU (lit "new")
          (constEnv [jdoeEntry staffOU]) []).1 = .ret (some e))
      ∧ (createComputer exampleLib exampleClient (lit "jdoe") peopleOU (lit "new")
          (constEnv [jdoeEntry staffOU]) []).2
          = [] ++ [computerSearch exampleLib exampleClient (lit "jdoe")]
      ∧ mutations (createComputer exampleLib exampleClient (lit "jdoe") peopleOU (lit "new")
          (constEnv [jdoeEntry staffOU]) []).2 = mutations []) :=
  have people := create_conflict_no_mutation exampleLib exampleClient
    (constEnv [jdoeEntry staffOU]) [] jdoeRequest ⟨lit "jdoe", peopleOU, lit "a group"⟩
    (lit "jdoe") peopleOU (lit "new")
  have units := create_conflict_no_mutation exampleLib exampleClient
    (constEnv [engEntry staffOU]) [] jdoeRequest ⟨lit "jdoe", peopleOU, lit "a group"⟩
    (lit "eng") peopleOU (lit "new")
  ⟨people.1 ⟨lit "jdoe", (jdoeEntry staffOU).dn, lit "Doe", helper.exampleBlob⟩
      [userSearch (lit "jdoe") peopleOU] (by decide) (by decide),
    people.2.1 ⟨lit "jdoe", (jdoeEntry staffOU).dn, lit "jdoe"⟩
      [groupSearch (lit "jdoe") peopleOU] (by decide) (by decide),
    units.2.2.1 ⟨lit "eng", (engEntry staffOU).dn, lit "engineering"⟩
      [ouSearch (lit "eng") peopleOU] (by decide) (by decide),
    people.2.2.2 ⟨lit "jdoe", (jdoeEntry staffOU).dn, lit "a user"⟩
      [computerSearch exampleLib exampleClient (lit "jdoe")] (by decide) (by decide)⟩

end client

namespace helper

theorem Siddecode_EncodeToString (s : List Byte) (sid : SID) (r : Int)
    (hdec : Decode s = some sid) (hlast : sid.SubAuthorities.getLast? = some r) :
    Siddecode (base64.EncodeToString s) = some (sid.String, r) := by
  simp [Siddecode, base64.DecodeString_EncodeToString, hdec, RID_eq_getLast?, hlast]

end helper

namespace client

/-- C5: on every run of `createUser` that reaches the re-fetch (the first lookup
finds nothing, the password is encoded, and the create, password and enable
requests succeed) and in which the re-fetch returns one entry whose `objectSid` is
the byte string `s`, with `s` decoding to an identifier whose last sub-authority
is `r`: encoding `s` in base64 and decoding it gives `s` back, the sixth and last
call of the run replaces `uidNumber` by the decimal string of `r + 1000`, and
`createUser` returns nil when that request succeeds. -/
theorem createUser_writes_uidNumber (lib : Lib) (c : Client) (u : ADUserRequest) (env : Env)
    (tr : List Call) (encoded : GoString) (ret0 : ADObject) (cn sn s : GoString)
    (cns sns sids : List GoString) (sid : helper.SID) (r : Int)
    (henc : lib.utf16 (lib.quote u.password) = .ok encoded)
    (h1 : env (tr ++ [userSearch u.name u.baseOU]) = ⟨[], none⟩)
    (h2 : (env (tr ++ [userSearch u.name u.baseOU] ++ [userCreateCall lib c u])).err = none)
    (h3 : (env (tr ++ [userSearch u.name u.baseOU] ++ [userCreateCall lib c u]
      ++ [passwordCall u encoded])).err = none)
    (h4 : (env (tr ++ [userSearch u.name u.baseOU] ++ [userCreateCall lib c u]
      ++ [passwordCall u encoded] ++ [enableCall u])).err = none)
    (h5 : env (tr ++ [userSearch u.name u.baseOU] ++ [userCreateCall lib c u]
      ++ [passwordCall u encoded] ++ [enableCall u] ++ [userSearch u.name u.baseOU])
        = ⟨[ret0], none⟩)
    (hcn : mapIndex ret0.attributes (lit "cn") = cn :: cns)
    (hsn : mapIndex ret0.attributes (lit "sn") = sn :: sns)
    (hsid : mapIndex ret0.attributes (lit "objectSid") = s :: sids)
    (hdec : helper.Decode s = some sid)
    (hlast : sid.SubAuthorities.getLast? = some r) :
    base64.DecodeString (base64.EncodeToString s) = (s, false)
      ∧ (createUser lib c u env tr).2
          = tr ++ [userSearch u.name u.baseOU] ++ [userCreateCall lib c u]
              ++ [passwordCall u encoded] ++ [enableCall u] ++ [userSearch u.name u.baseOU]
              ++ [uidNumberCall u (itoa (r + 1000))]
      ∧ ((env (tr ++ [userSearch u.name u.baseOU] ++ [userCreateCall lib c u]
              ++ [passwordCall u encoded] ++ [enableCall u] ++ [userSearch u.name u.baseOU]
              ++ [uidNumberCall u (itoa (r + 1000))])).err = none →
          (createUser lib c u env tr).1 = .ret none) := by
  refine ⟨base64.DecodeString_EncodeToString s, ?_⟩
  have e1 := getUser_of_empty u.name u.baseOU env tr h1
  have e5 := getUser_of_one u.name u.baseOU env _ ret0 cn sn s cns sns sids h5 hcn hsn hsid
  simp only [userCreateCall, passwordCall, enableCall] at h2 h3 h4 e5
  simp only [createUser, bind_run, Op.bind, e1, henc, createObject, Modify, call_run, pure_run,
    h2, h3, h4, e5, helper.Siddecode_EncodeToString s sid r hdec hlast, ofOption,
    userCreateCall, passwordCall, enableCall, uidNumberCall]
  refine ⟨?_, fun h6 => ?_⟩
  · generalize (env _).err = e
    cases e <;> rfl
  · simp only [h6, pure_run]

/-- C5, on the example: the re-fetch returns `jdoe` with the `objectSid` of the
example, whose sub-authorities end in 1105, and `uidNumber` is set to `2105`. -/
theorem createUser_writes_uidNumber_witness :
    itoa (1105 + 1000) = lit "2105"
      ∧ base64.DecodeString (base64.EncodeToString helper.exampleBlob)
          = (helper.exampleBlob, false)
      ∧ (createUser exampleLib exampleClient jdoeRequest freshEnv []).2
          = [] ++ [userSearch jdoeRequest.name jdoeRequest.baseOU]
              ++ [userCreateCall exampleLib exampleClient jdoeRequest]
              ++ [passwordCall jdoeRequest
                  ((exampleLib.quote jdoeRequest.password).flatMap (fun b => [b, 0]))]
              ++ [enableCall jdoeRequest] ++ [userSearch jdoeRequest.name jdoeRequest.baseOU]
              ++ [uidNumberCall jdoeRequest (itoa (1105 + 1000))]
      ∧ (createUser exampleLib exampleClient jdoeRequest freshEnv []).1 = .ret none :=
  have key := createUser_writes_uidNumber exampleLib exampleClient jdoeRequest freshEnv []
    ((exampleLib.quote jdoeRequest.password).flatMap (fun b => [b, 0])) (jdoeEntry peopleOU)
    (lit "jdoe") (lit "Doe") helper.exampleBlob [] [] []
    ⟨1, 5, 5, [21, 2, 3, 4, 1105], none⟩ 1105
    rfl rfl rfl rfl rfl rfl (by decide) (by decide) (by decide) (by decide) (by decide)
  ⟨by decide, key.1, key.2.1, key.2.2 rfl⟩

end client

namespace helper

/-! ### Where `Decode` faults -/

theorem byteIndex_eq_none (b : List Byte) (i : Nat) (h : b.length ≤ i) : byteIndex b i = none := by
  simp [byteIndex, List.getElem?_eq_none h]

theorem decodeAuthority_eq_none (b : List Byte) (h : b.length < 8) : decodeAuthority b = none := by
  have h7 : byteIndex b 7 = none := byteIndex_eq_none b 7 (by omega)
  have hsplit : ([2, 3, 4, 5, 6, 7] : List Nat) = [2, 3, 4, 5, 6] ++ [7] := rfl
  unfold decodeAuthority
  rw [hsplit, List.foldlM_append]
  simp only [List.foldlM_cons, List.foldlM_nil, h7, Option.bind_eq_bind, Option.none_bind,
    Option.bind_none]

theorem decodeSubAuthority_eq_none (b : List Byte) (offset : Nat) (h : b.length < offset + 4) :
    decodeSubAuthority b offset = none := by
  have h3 : byteIndex b (offset + 3) = none := byteIndex_eq_none b _ (by omega)
  have hsplit : List.range 4 = [0, 1, 2] ++ [3] := rfl
  unfold decodeSubAuthority
  rw [hsplit, List.foldlM_append]
  simp only [List.foldlM_cons, List.foldlM_nil, h3, Option.bind_eq_bind, Option.none_bind,
    Option.bind_none]

theorem decodeSubAuthorities_eq_none (b : List Byte) (n : Nat) (h8 : 8 ≤ b.length)
    (h : b.length < 8 + 4 * n) : decodeSubAuthorities b n = none := by
  induction n with
  | zero => omega
  | succ n ih =>
    unfold decodeSubAuthorities at ih ⊢
    rw [List.range_succ, List.foldlM_append]
    by_cases hn : b.length < 8 + 4 * n
    · rw [ih hn]
      rfl
    · have hfirst := decodeSubAuthorities_eq b n (by omega)
      unfold decodeSubAuthorities at hfirst
      rw [hfirst]
      simp only [Option.some_bind, Option.bind_eq_bind, List.foldlM_cons, List.foldlM_nil]
      rw [decodeSubAuthority_eq_none b (8 + 4 * n) (by omega)]
      rfl

theorem Decode_eq_none (b : List Byte) (h : b.length < 8 + 4 * byteAt b 1) : Decode b = none := by
  unfold Decode
  by_cases h8 : b.length < 8
  · by_cases h0 : b.length ≤ 0
    · rw [byteIndex_eq_none b 0 h0]
      rfl
    · rw [byteIndex_eq_byteAt b 0 (by omega)]
      by_cases h1 : b.length ≤ 1
      · rw [byteIndex_eq_none b 1 h1]
        rfl
      · rw [byteIndex_eq_byteAt b 1 (by omega), decodeAuthority_eq_none b h8]
        rfl
  · rw [byteIndex_eq_byteAt b 0 (by omega), byteIndex_eq_byteAt b 1 (by omega),
      decodeAuthority_eq b (by omega)]
    simp only [Option.some_bind, Option.bind_eq_bind, and_ff_eq _ (byteAt_lt b 1)]
    rw [decodeSubAuthorities_eq_none b _ (by omega) h]
    rfl

theorem byteAt_take (b : List Byte) (n i : Nat) (h : i < n) :
    byteAt (b.take n) i = byteAt b i := by
  simp [byteAt, List.getD, List.getElem?_take, h]

theorem layoutSID_take (b : List Byte) (n : Nat) (h : 8 + 4 * byteAt b 1 ≤ n) :
    layoutSID (b.take n) = layoutSID b := by
  have h1 : byteAt (b.take n) 1 = byteAt b 1 := byteAt_take b n 1 (by omega)
  have hauth : layoutAuthority (b.take n) = layoutAuthority b := by
    simp only [layoutAuthority, List.range, List.range.loop, List.map_cons, List.map_nil]
    rw [byteAt_take b n _ (by omega), byteAt_take b n _ (by omega), byteAt_take b n _ (by omega),
      byteAt_take b n _ (by omega), byteAt_take b n _ (by omega), byteAt_take b n _ (by omega)]
  have hsub : ∀ i, i < byteAt b 1 →
      layoutSubAuthority (b.take n) i = layoutSubAuthority b i := by
    intro i hi
    simp only [layoutSubAuthority, List.range, List.range.loop, List.map_cons, List.map_nil]
    rw [byteAt_take b n _ (by omega), byteAt_take b n _ (by omega), byteAt_take b n _ (by omega),
      byteAt_take b n _ (by omega)]
  simp only [layoutSID, h1, hauth, byteAt_take b n 0 (by omega)]
  congr 1
  apply List.map_congr_left
  intro i hi
  rw [hsub i (List.mem_range.mp hi)]

/-- C15: `Decode(b)` completes without an index out of range if and only if
`len(b) >= 8` and `len(b) >= 8 + 4*b[1]`; on every other buffer, the empty one
included, it faults (it returns neither a SID nor an error); and a buffer that
agrees with a long enough `b` on the first `8 + 4*b[1]` bytes decodes to the same
SID, so the bytes beyond that offset do not affect the result. -/
theorem decode_faults_iff (b b2 : List Byte) :
    ((Decode b).isSome ↔ 8 ≤ b.length ∧ 8 + 4 * byteAt b 1 ≤ b.length)
      ∧ (¬ (8 ≤ b.length ∧ 8 + 4 * byteAt b 1 ≤ b.length) → Decode b = none)
      ∧ Decode [] = none
      ∧ (8 + 4 * byteAt b 1 ≤ b.length →
          b2.take (8 + 4 * byteAt b 1) = b.take (8 + 4 * byteAt b 1) →
          Decode b2 = Decode b ∧ (Decode b).isSome) := by
  refine ⟨⟨fun hsome => ?_, fun h => ?_⟩, fun h => ?_, rfl, fun h htake => ?_⟩
  · by_cases hlen : 8 + 4 * byteAt b 1 ≤ b.length
    · exact ⟨by omega, hlen⟩
    · rw [Decode_eq_none b (by omega)] at hsome
      exact absurd hsome (by simp)
  · rw [Decode_eq_layoutSID b h.2]
    rfl
  · exact Decode_eq_none b (by omega)
  · have hlen2 : 8 + 4 * byteAt b 1 ≤ b2.length := by
      have hl := congrArg List.length htake
      simp only [List.length_take] at hl
      omega
    have h1 : byteAt b2 1 = byteAt b 1 := by
      rw [← byteAt_take b2 (8 + 4 * byteAt b 1) 1 (by omega), htake,
        byteAt_take b (8 + 4 * byteAt b 1) 1 (by omega)]
    have e2 := layoutSID_take b2 (8 + 4 * byteAt b 1) (by omega)
    have e1 := layoutSID_take b (8 + 4 * byteAt b 1) (by omega)
    rw [Decode_eq_layoutSID b h, Decode_eq_layoutSID b2 (by omega), ← e2, htake, e1]
    exact ⟨rfl, rfl⟩

/-- C15, on the example blob and on the same blob followed by two more bytes; a
blob cut to 27 bytes faults. -/
theorem decode_faults_iff_witness :
    Decode (exampleBlob ++ [9, 9]) = Decode exampleBlob
      ∧ (Decode exampleBlob).isSome
      ∧ Decode (exampleBlob.take 27) = none :=
  have long := (decode_faults_iff exampleBlob (exampleBlob ++ [9, 9])).2.2.2
    (by decide) (by decide)
  ⟨long.1, long.2,
    (decode_faults_iff (exampleBlob.take 27) []).2.1 (by decide)⟩

end helper

namespace client

/-! ### The guarded delete -/

theorem deleteGroup_eq_deleteUser : deleteGroup = deleteUser := rfl

theorem deleteOU_eq_deleteUser : deleteOU = deleteUser := rfl

theorem deleteUser_of_children (lib : Lib) (dn : GoString) (env : Env) (tr : List Call)
    (objs : List ADObject) (h : env (tr ++ [childSearch dn]) = ⟨objs, none⟩)
    (hobjs : 2 ≤ objs.length ∨ ∃ o, objs = [o] ∧ lib.EqualFold o.dn dn = false) :
    ∃ e, deleteUser lib dn env tr = (.ret (some e), tr ++ [childSearch dn]) := by
  simp only [childSearch] at h
  rcases hobjs with hlen | ⟨o, rfl, hfold⟩
  · match objs, hlen with
    | o1 :: o2 :: rest, _ =>
      simp only [deleteUser, searchObject, bind_run, Op.bind, call_run, childSearch, h, pure_run,
        List.length_cons, gt_iff_lt, Nat.lt_add_left_iff_pos, Nat.zero_lt_succ, true_or, if_true]
      exact ⟨_, rfl⟩
  · simp only [deleteUser, searchObject, bind_run, Op.bind, call_run, childSearch, h, pure_run,
      hfold, Bool.false_eq_true, not_false_eq_true, or_true, if_true]
    exact ⟨_, rfl⟩

theorem deleteUser_of_leaf (lib : Lib) (dn : GoString) (env : Env) (tr : List Call)
    (objs : List ADObject) (h : env (tr ++ [childSearch dn]) = ⟨objs, none⟩)
    (hobjs : objs = [] ∨ ∃ o, objs = [o] ∧ lib.EqualFold o.dn dn = true) :
    deleteUser lib dn env tr
      = (.ret (env (tr ++ [childSearch dn] ++ [.deleteObject dn])).err,
          tr ++ [childSearch dn] ++ [.deleteObject dn]) := by
  simp only [childSearch] at h
  rcases hobjs with rfl | ⟨o, rfl, hfold⟩
  · simp only [deleteUser, searchObject, bind_run, Op.bind, call_run, childSearch, h, pure_run,
      deleteObject]
  · simp only [deleteUser, searchObject, bind_run, Op.bind, call_run, childSearch, h, pure_run,
      deleteObject, hfold, List.length_singleton, gt_iff_lt, Nat.lt_irrefl, not_true_eq_false,
      or_self, if_false]

/-- C11: for each of `deleteUser`, `deleteGroup` and `deleteOU`, when the child
search under `dn` succeeds with the entries `objs`: with two or more entries, or
with one entry whose DN is not `dn` up to case, the operation returns an error
and its only call is the search; with no entry, or with one entry whose DN is
`dn` up to case, it issues the search and then exactly one delete call, for `dn`,
and returns the result of that call. -/
theorem delete_guarded (lib : Lib) (dn : GoString) (env : Env) (tr : List Call)
    (objs : List ADObject) (h : env (tr ++ [childSearch dn]) = ⟨objs, none⟩) :
    ((2 ≤ objs.length ∨ ∃ o, objs = [o] ∧ lib.EqualFold o.dn dn = false) →
        (∃ e, deleteUser lib dn env tr = (.ret (some e), tr ++ [childSearch dn]))
        ∧ (∃ e, deleteGroup lib dn env tr = (.ret (some e), tr ++ [childSearch dn]))
        ∧ (∃ e, deleteOU lib dn env tr = (.ret (some e), tr ++ [childSearch dn])))
    ∧ ((objs = [] ∨ ∃ o, objs = [o] ∧ lib.EqualFold o.dn dn = true) →
        deleteUser lib dn env tr
            = (.ret (env (tr ++ [childSearch dn] ++ [.deleteObject dn])).err,
                tr ++ [childSearch dn] ++ [.deleteObject dn])
        ∧ deleteGroup lib dn env tr
            = (.ret (env (tr ++ [childSearch dn] ++ [.deleteObject dn])).err,
                tr ++ [childSearch dn] ++ [.deleteObject dn])
        ∧ deleteOU lib dn env tr
            = (.ret (env (tr ++ [childSearch dn] ++ [.deleteObject dn])).err,
                tr ++ [childSearch dn] ++ [.deleteObject dn])) := by
  rw [deleteGroup_eq_deleteUser, deleteOU_eq_deleteUser]
  exact ⟨fun hobjs => ⟨deleteUser_of_children lib dn env tr objs h hobjs,
      deleteUser_of_children lib dn env tr objs h hobjs,
      deleteUser_of_children lib dn env tr objs h hobjs⟩,
    fun hobjs => ⟨deleteUser_of_leaf lib dn env tr objs h hobjs,
      deleteUser_of_leaf lib dn env tr objs h hobjs,
      deleteUser_of_leaf lib dn env tr objs h hobjs⟩⟩

/-- C11, on three directories: `peopleOU` with the child `eng` is refused; a DN
with no entry under it is deleted; and a container whose search returns only
itself, in another case of letters, is deleted. -/
theorem delete_guarded_witness :
    (∃ e, deleteOU exampleLib peopleOU (constEnv [engEntry peopleOU]) []
        = (.ret (some e), [] ++ [childSearch peopleOU]))
      ∧ deleteUser exampleLib (lit "cn=jdoe," ++ peopleOU) (constEnv []) []
        = (.ret none, [] ++ [childSearch (lit "cn=jdoe," ++ peopleOU)]
            ++ [.deleteObject (lit "cn=jdoe," ++ peopleOU)])
      ∧ deleteOU exampleLib (lit "ou=eng," ++ peopleOU)
          (constEnv [⟨lit "OU=Eng," ++ peopleOU, []⟩]) []
        = (.ret none, [] ++ [childSearch (lit "ou=eng," ++ peopleOU)]
            ++ [.deleteObject (lit "ou=eng," ++ peopleOU)]) :=
  ⟨((delete_guarded exampleLib peopleOU (constEnv [engEntry peopleOU]) []
      [engEntry peopleOU] rfl).1 (Or.inr ⟨engEntry peopleOU, rfl, by decide⟩)).2.2,
    ((delete_guarded exampleLib (lit "cn=jdoe," ++ peopleOU) (constEnv []) [] [] rfl).2
      (Or.inl rfl)).1,
    ((delete_guarded exampleLib (lit "ou=eng," ++ peopleOU)
      (constEnv [⟨lit "OU=Eng," ++ peopleOU, []⟩]) [] [⟨lit "OU=Eng," ++ peopleOU, []⟩] rfl).2
      (Or.inr ⟨⟨lit "OU=Eng," ++ peopleOU, []⟩, rfl, by decide⟩)).2.2⟩

end client

namespace client

/-! ### The order of the requests of `createUser` -/

theorem mutations_append (a b : List Call) : mutations (a ++ b) = mutations a ++ mutations b := by
  simp [mutations]

theorem mutations_userSearch (name baseOU : GoString) : mutations [userSearch name baseOU] = [] :=
  rfl

theorem mutations_userCreateCall (lib : Lib) (c : Client) (u : ADUserRequest) :
    mutations [userCreateCall lib c u] = [userCreateCall lib c u] := rfl

theorem mutations_passwordCall (u : ADUserRequest) (encoded : GoString) :
    mutations [passwordCall u encoded] = [passwordCall u encoded] := rfl

theorem mutations_enableCall (u : ADUserRequest) : mutations [enableCall u] = [enableCall u] := rfl

theorem mutations_uidNumberCall (u : ADUserRequest) (v : GoString) :
    mutations [uidNumberCall u v] = [uidNumberCall u v] := rfl

theorem enableCall_ne_userCreateCall (lib : Lib) (c : Client) (u : ADUserRequest) :
    enableCall u ≠ userCreateCall lib c u := by
  simp [enableCall, userCreateCall]

theorem enableCall_ne_passwordCall (u : ADUserRequest) (encoded : GoString) :
    enableCall u ≠ passwordCall u encoded := by
  have hne : lit "userAccountControl" ≠ lit "unicodePwd" := by decide
  simp [enableCall, passwordCall, hne]

theorem userAccountControl_created (lib : Lib) (c : Client) (u : ADUserRequest) :
    mapIndex (userAttributes lib c u) (lit "userAccountControl") = [lit "514"] := by
  rfl

/-- The traces that a run of `createUser` can leave when the initial lookup finds
nothing: the run stops after the lookup (the password cannot be encoded), after
the create request (it failed), after the password request (it failed), after the
enable request, after the re-fetch, or after the `uidNumber` request. -/
theorem createUser_trace_cases (lib : Lib) (c : Client) (u : ADUserRequest) (env : Env)
    (tr : List Call) (h1 : env (tr ++ [userSearch u.name u.baseOU]) = ⟨[], none⟩) :
    (createUser lib c u env tr).2 = tr ++ [userSearch u.name u.baseOU]
    ∨ ∃ encoded,
        ((env (tr ++ [userSearch u.name u.baseOU] ++ [userCreateCall lib c u])).err ≠ none
          ∧ (createUser lib c u env tr).2
              = tr ++ [userSearch u.name u.baseOU] ++ [userCreateCall lib c u])
        ∨ ((env (tr ++ [userSearch u.name u.baseOU] ++ [userCreateCall lib c u])).err = none
          ∧ (env (tr ++ [userSearch u.name u.baseOU] ++ [userCreateCall lib c u]
              ++ [passwordCall u encoded])).err ≠ none
          ∧ (createUser lib c u env tr).2
              = tr ++ [userSearch u.name u.baseOU] ++ [userCreateCall lib c u]
                  ++ [passwordCall u encoded])
        ∨ ((env (tr ++ [userSearch u.name u.baseOU] ++ [userCreateCall lib c u])).err = none
          ∧ (env (tr ++ [userSearch u.name u.baseOU] ++ [userCreateCall lib c u]
              ++ [passwordCall u encoded])).err = none
          ∧ ((createUser lib c u env tr).2
                = tr ++ [userSearch u.name u.baseOU] ++ [userCreateCall lib c u]
                    ++ [passwordCall u encoded] ++ [enableCall u]
              ∨ (createUser lib c u env tr).2
                = tr ++ [userSearch u.name u.baseOU] ++ [userCreateCall lib c u]
                    ++ [passwordCall u encoded] ++ [enableCall u]
                    ++ [userSearch u.name u.baseOU]
              ∨ ∃ v, (createUser lib c u env tr).2
                = tr ++ [userSearch u.name u.baseOU] ++ [userCreateCall lib c u]
                    ++ [passwordCall u encoded] ++ [enableCall u]
                    ++ [userSearch u.name u.baseOU] ++ [uidNumberCall u v])) := by
  have e1 := getUser_of_empty u.name u.baseOU env tr h1
  cases henc : lib.utf16 (lib.quote u.password) with
  | error e =>
    left
    simp only [createUser, bind_run, Op.bind, e1, henc, logFatal_run]
  | ok encoded =>
    right
    refine ⟨encoded, ?_⟩
    cases h2 : (env (tr ++ [userSearch u.name u.baseOU] ++ [userCreateCall lib c u])).err with
    | some e2 =>
      left
      refine ⟨by simp, ?_⟩
      simp only [userCreateCall] at h2
      simp only [createUser, bind_run, Op.bind, e1, henc, createObject, call_run, pure_run, h2,
        userCreateCall]
    | none =>
      right
      cases h3 : (env (tr ++ [userSearch u.name u.baseOU] ++ [userCreateCall lib c u]
          ++ [passwordCall u encoded])).err with
      | some e3 =>
        left
        refine ⟨rfl, by simp, ?_⟩
        simp only [userCreateCall, passwordCall] at h2 h3
        simp only [createUser, bind_run, Op.bind, e1, henc, createObject, Modify, call_run,
          pure_run, h2, h3, userCreateCall, passwordCall]
      | none =>
        right
        refine ⟨rfl, rfl, ?_⟩
        cases h4 : (env (tr ++ [userSearch u.name u.baseOU] ++ [userCreateCall lib c u]
            ++ [passwordCall u encoded] ++ [enableCall u])).err with
        | some e4 =>
          left
          simp only [userCreateCall, passwordCall, enableCall] at h2 h3 h4
          simp only [createUser, bind_run, Op.bind, e1, henc, createObject, Modify, call_run,
            pure_run, h2, h3, h4, logFatal_run, userCreateCall, passwordCall, enableCall]
        | none =>
          right
          have htr := getUser_trace u.name u.baseOU env
            (tr ++ [userSearch u.name u.baseOU] ++ [userCreateCall lib c u]
              ++ [passwordCall u encoded] ++ [enableCall u])
          rcases hg : getUser u.name u.baseOU env
            (tr ++ [userSearch u.name u.baseOU] ++ [userCreateCall lib c u]
              ++ [passwordCall u encoded] ++ [enableCall u]) with ⟨out, tr5⟩
          rw [hg] at htr
          simp only at htr
          subst htr
          simp only [userCreateCall, passwordCall, enableCall] at h2 h3 h4 hg
          cases out with
          | panic =>
            left
            simp only [createUser, bind_run, Op.bind, e1, henc, createObject, Modify, call_run,
              pure_run, h2, h3, h4, hg, userCreateCall, passwordCall, enableCall]
          | fatal =>
            left
            simp only [createUser, bind_run, Op.bind, e1, henc, createObject, Modify, call_run,
              pure_run, h2, h3, h4, hg, userCreateCall, passwordCall, enableCall]
          | ret p =>
            obtain ⟨userdata, err⟩ := p
            cases err with
            | some e5 =>
              left
              simp only [createUser, bind_run, Op.bind, e1, henc, createObject, Modify,
                call_run, pure_run, h2, h3, h4, hg, userCreateCall, passwordCall, enableCall]
            | none =>
              cases userdata with
              | none =>
                left
                simp only [createUser, bind_run, Op.bind, e1, henc, createObject, Modify,
                  call_run, pure_run, h2, h3, h4, hg, panic_run, userCreateCall, passwordCall,
                  enableCall]
              | some userdata =>
                cases hs : helper.Siddecode (base64.EncodeToString userdata.sid) with
                | none =>
                  left
                  simp only [createUser, bind_run, Op.bind, e1, henc, createObject, Modify,
                    call_run, pure_run, h2, h3, h4, hg, hs, ofOption, panic_run, userCreateCall,
                    passwordCall, enableCall]
                | some res =>
                  right
                  refine ⟨itoa (res.2 + 1000), ?_⟩
                  simp only [createUser, bind_run, Op.bind, e1, henc, createObject, Modify,
                    call_run, pure_run, h2, h3, h4, hg, hs, ofOption, userCreateCall,
                    passwordCall, enableCall, uidNumberCall]
                  generalize (env _).err = e
                  cases e <;> rfl

/-- C12: on every run of `createUser` in which the initial lookup finds nothing,
the calls that change the directory are an initial part of the sequence: create
(with `userAccountControl` = `514`), replace `unicodePwd`, replace
`userAccountControl` by `512`, replace `uidNumber`. So the enable request never
comes before the password request, and it is issued only when the create and the
password requests have succeeded. -/
theorem createUser_request_order (lib : Lib) (c : Client) (u : ADUserRequest) (env : Env)
    (tr : List Call) (h1 : env (tr ++ [userSearch u.name u.baseOU]) = ⟨[], none⟩) :
    mapIndex (userAttributes lib c u) (lit "userAccountControl") = [lit "514"]
      ∧ enableCall u = .Modify (usercn u) [⟨.Replace, lit "userAccountControl", [lit "512"]⟩]
      ∧ ∃ encoded v l,
          l <+: [userCreateCall lib c u, passwordCall u encoded, enableCall u, uidNumberCall u v]
          ∧ mutations (createUser lib c u env tr).2 = mutations tr ++ l
          ∧ (enableCall u ∈ l →
              (env (tr ++ [userSearch u.name u.baseOU] ++ [userCreateCall lib c u])).err = none
              ∧ (env (tr ++ [userSearch u.name u.baseOU] ++ [userCreateCall lib c u]
                  ++ [passwordCall u encoded])).err = none) := by
  refine ⟨userAccountControl_created lib c u, rfl, ?_⟩
  rcases createUser_trace_cases lib c u env tr h1 with
    hT | ⟨encoded, ⟨_, hT⟩ | ⟨_, _, hT⟩ | ⟨h2, h3, hT | hT | ⟨v, hT⟩⟩⟩
  · refine ⟨[], [], [], ⟨_, rfl⟩, ?_, fun hmem => absurd hmem (List.not_mem_nil _)⟩
    rw [hT]
    simp only [mutations_append, mutations_userSearch, List.append_nil]
  · refine ⟨encoded, [], [userCreateCall lib c u], ⟨_, rfl⟩, ?_, fun hmem => ?_⟩
    · rw [hT]
      simp only [mutations_append, mutations_userSearch, mutations_userCreateCall,
        List.append_nil]
    · rw [List.mem_singleton] at hmem
      exact absurd hmem (enableCall_ne_userCreateCall lib c u)
  · refine ⟨encoded, [], [userCreateCall lib c u, passwordCall u encoded], ⟨_, rfl⟩, ?_,
      fun hmem => ?_⟩
    · rw [hT]
      simp only [mutations_append, mutations_userSearch, mutations_userCreateCall,
        mutations_passwordCall]
      simp only [List.append_nil, List.nil_append, List.append_assoc, List.singleton_append,
        List.cons_append]
    · simp only [List.mem_cons, List.mem_singleton, List.not_mem_nil, or_false] at hmem
      rcases hmem with hmem | hmem
      · exact absurd hmem (enableCall_ne_userCreateCall lib c u)
      · exact absurd hmem (enableCall_ne_passwordCall u encoded)
  · refine ⟨encoded, [], [userCreateCall lib c u, passwordCall u encoded, enableCall u],
      ⟨_, rfl⟩, ?_, fun _ => ⟨h2, h3⟩⟩
    rw [hT]
    simp only [mutations_append, mutations_userSearch, mutations_userCreateCall,
      mutations_passwordCall, mutations_enableCall]
    simp only [List.append_nil, List.nil_append, List.append_assoc, List.singleton_append,
      List.cons_append]
  · refine ⟨encoded, [], [userCreateCall lib c u, passwordCall u encoded, enableCall u],
      ⟨_, rfl⟩, ?_, fun _ => ⟨h2, h3⟩⟩
    rw [hT]
    simp only [mutations_append, mutations_userSearch, mutations_userCreateCall,
      mutations_passwordCall, mutations_enableCall]
    simp only [List.append_nil, List.nil_append, List.append_assoc, List.singleton_append,
      List.cons_append]
  · refine ⟨encoded, v, [userCreateCall lib c u, passwordCall u encoded, enableCall u,
      uidNumberCall u v], ⟨_, List.append_nil _⟩, ?_, fun _ => ⟨h2, h3⟩⟩
    rw [hT]
    simp only [mutations_append, mutations_userSearch, mutations_userCreateCall,
      mutations_passwordCall, mutations_enableCall, mutations_uidNumberCall]
    simp only [List.append_nil, List.nil_append, List.append_assoc, List.singleton_append,
      List.cons_append]

/-- C12, on the directory `freshEnv`, where all four requests are issued, and on
the same directory with a failing password request, where the run stops before
the enable request. -/
theorem createUser_request_order_witness :
    freshEnv ([] ++ [userSearch jdoeRequest.name jdoeRequest.baseOU]) = ⟨[], none⟩
      ∧ (∃ encoded v l,
          l <+: [userCreateCall exampleLib exampleClient jdoeRequest,
            passwordCall jdoeRequest encoded, enableCall jdoeRequest,
            uidNumberCall jdoeRequest v]
          ∧ mutations (createUser exampleLib exampleClient jdoeRequest freshEnv []).2
              = mutations [] ++ l
          ∧ (enableCall jdoeRequest ∈ l →
              (freshEnv ([] ++ [userSearch jdoeRequest.name jdoeRequest.baseOU]
                ++ [userCreateCall exampleLib exampleClient jdoeRequest])).err = none
              ∧ (freshEnv ([] ++ [userSearch jdoeRequest.name jdoeRequest.baseOU]
                ++ [userCreateCall exampleLib exampleClient jdoeRequest]
                ++ [passwordCall jdoeRequest encoded])).err = none))
      ∧ mutations (createUser exampleLib exampleClient jdoeRequest freshEnv []).2
          = [userCreateCall exampleLib exampleClient jdoeRequest,
              passwordCall jdoeRequest
                ((exampleLib.quote jdoeRequest.password).flatMap (fun b => [b, 0])),
              enableCall jdoeRequest, uidNumberCall jdoeRequest (lit "2105")]
      ∧ mutations (createUser exampleLib exampleClient jdoeRequest (failingEnv 3) []).2
          = [userCreateCall exampleLib exampleClient jdoeRequest,
              passwordCall jdoeRequest
                ((exampleLib.quote jdoeRequest.password).flatMap (fun b => [b, 0]))] :=
  ⟨rfl, (createUser_request_order exampleLib exampleClient jdoeRequest freshEnv [] rfl).2.2,
    by decide, by decide⟩

/-! ### Failing transport calls -/

theorem addUserToGroup_run (userdn groupdn : GoString) (env : Env) (tr : List Call) :
    addUserToGroup userdn groupdn env tr
      = (match (env (tr ++ [memberCall userdn groupdn])).err with
          | some _ => .fatal
          | none => .ret none,
        tr ++ [memberCall userdn groupdn]) := by
  simp only [addUserToGroup, Modify, bind_run, Op.bind, call_run, pure_run, memberCall]
  generalize (env _).err = e
  cases e <;> rfl

/-- C13 fails on the code: when the enable request of `createUser` fails (fourth
call), when its `uidNumber` request fails (sixth call), and when the member
request of `addUserToGroup` fails, the operation ends in `log.Fatal`, which
terminates the process, and returns no error. When the create request (second
call) or the password request (third call) fails, `createUser` does return an
error. -/
theorem transport_failure_terminates :
    (createUser exampleLib exampleClient jdoeRequest (failingEnv 4) []).1 = .fatal
      ∧ (createUser exampleLib exampleClient jdoeRequest (failingEnv 6) []).1 = .fatal
      ∧ (addUserToGroup (lit "cn=jdoe," ++ peopleOU) (lit "cn=staff," ++ staffOU)
          (failingEnv 1) []).1 = .fatal
      ∧ (createUser exampleLib exampleClient jdoeRequest (failingEnv 2) []).1
          = .ret (some (lit "create User - Failed to create the user: LDAP Result Code 53"))
      ∧ (createUser exampleLib exampleClient jdoeRequest (failingEnv 3) []).1
          = .ret (some (lit "failed to execute the modify password request")) := by
  decide

/-! ### Updating the description of an absent entity -/

/-- C14 fails as stated: in a directory that holds no entry,
`updateComputerDescription` makes no lookup and issues its update call, returning
the error of that call; and `updateOUDescription`, whose lookup finds nothing,
panics on the nil record instead of returning a not-found error. -/
theorem update_description_absent_counterexample :
    updateComputerDescription (lit "eng") peopleOU (lit "new") absentEnv []
        = (.ret (some (lit "LDAP Result Code 32: No Such Object")),
            [computerDescriptionCall (lit "eng") peopleOU (lit "new")])
      ∧ (computerDescriptionCall (lit "eng") peopleOU (lit "new")).isMutation = true
      ∧ (getOU (lit "eng") peopleOU absentEnv []).1 = .ret (none, none)
      ∧ updateOUDescription (lit "eng") peopleOU (lit "new") absentEnv []
        = (.panic, [ouSearch (lit "eng") peopleOU]) := by
  decide

/-- C14, amended: `updateComputerDescription` makes no lookup; on every directory
it issues exactly one call, the update of `cn=<cn>,<ou>` that changes the
description, and returns the result of that call. `updateOUDescription`, when its
lookup finds no entry, issues no call beyond the search of the lookup. -/
theorem update_description_absent (cn ou description : GoString) (env : Env) (tr : List Call) :
    updateComputerDescription cn ou description env tr
        = (.ret (env (tr ++ [computerDescriptionCall cn ou description])).err,
            tr ++ [computerDescriptionCall cn ou description])
      ∧ (env (tr ++ [ouSearch cn ou]) = ⟨[], none⟩ →
          (updateOUDescription cn ou description env tr).2 = tr ++ [ouSearch cn ou]
          ∧ mutations (updateOUDescription cn ou description env tr).2 = mutations tr) := by
  refine ⟨rfl, fun h => ?_⟩
  have e1 := getOU_of_empty cn ou env tr h
  have hT : (updateOUDescription cn ou description env tr).2 = tr ++ [ouSearch cn ou] := by
    simp only [updateOUDescription, bind_run, Op.bind, e1, panic_run]
  rw [hT]
  exact ⟨rfl, mutations_append_search tr _ _ _⟩

/-- C14, amended, on the directory that holds no entry. -/
theorem update_description_absent_witness :
    absentEnv ([] ++ [ouSearch (lit "eng") peopleOU]) = ⟨[], none⟩
      ∧ updateComputerDescription (lit "eng") peopleOU (lit "new") absentEnv []
        = (.ret (absentEnv ([] ++ [computerDescriptionCall (lit "eng") peopleOU (lit "new")])).err,
            [] ++ [computerDescriptionCall (lit "eng") peopleOU (lit "new")])
      ∧ (updateOUDescription (lit "eng") peopleOU (lit "new") absentEnv []).2
          = [] ++ [ouSearch (lit "eng") peopleOU]
      ∧ mutations (updateOUDescription (lit "eng") peopleOU (lit "new") absentEnv []).2
          = mutations [] :=
  have key := update_description_absent (lit "eng") peopleOU (lit "new") absentEnv []
  ⟨rfl, key.1, (key.2 rfl).1, (key.2 rfl).2⟩

end client
